import Mathlib

/-!
# dns-scanner: SPF / DKIM / DMARC record scanner

A shallow embedding of `main.go`.

* Go `string` values are Lean `String`s; the `strings` functions the program
  calls are defined on the character sequence `String.data`.  On text that is
  valid UTF-8 the byte-wise Go functions and these agree.
* The outside world is an explicit `Env`: the answers of `net.LookupTXT`
  (one answer for each name, the same every time the name is asked), the
  result of opening and line-scanning a file, and whether a file can be
  created.  An answer `none` of `lookupTXT` is a lookup that returned an error.
* Everything the program does to the outside world is recorded, in order, as
  a list of `Event`s (DNS lookups, console output, files written, and the
  fatal termination of `log.Fatalf`).
-/

namespace DnsScanner

/-! ## The `strings` functions used by the program -/

/-- Go `strings.HasPrefix(s, pre)`. -/
def hasPrefix (s pre : String) : Bool :=
  pre.data.isPrefixOf s.data

/-- Substring search: does `sub` occur somewhere in the given characters. -/
def containsFrom (sub : List Char) : List Char → Bool
  | [] => sub.isPrefixOf []
  | c :: cs => sub.isPrefixOf (c :: cs) || containsFrom sub cs

/-- Go `strings.Contains(s, substr)`. -/
def contains (s substr : String) : Bool :=
  containsFrom substr.data s.data

/-- Go `unicode.IsSpace`: the Unicode White_Space property. -/
def isSpace (c : Char) : Bool :=
  let n := c.toNat
  (9 ≤ n && n ≤ 13) || n = 32 || n = 0x85 || n = 0xA0 || n = 0x1680 ||
  (0x2000 ≤ n && n ≤ 0x200A) || n = 0x2028 || n = 0x2029 || n = 0x202F ||
  n = 0x205F || n = 0x3000

/-- Go `strings.TrimSpace`: drop leading and trailing white space. -/
def trimSpace (s : String) : String :=
  String.mk ((s.data.dropWhile isSpace).reverse.dropWhile isSpace).reverse

/-- Go `strings.Join(elems, sep)`. -/
def join : List String → String → String
  | [], _ => ""
  | [a], _ => a
  | a :: b :: rest, sep => a ++ sep ++ join (b :: rest) sep

/-! ## The outside world -/

/-- What `os.Open` followed by a `bufio.Scanner` loop delivers for a file that
could be opened: the lines the scanner yields, and the error `scanner.Err()`
reports afterwards (if any). -/
structure FileScan where
  lines : List String
  scanErr : Option String
  deriving DecidableEq, Repr

/-- The environment the program runs in. -/
structure Env where
  /-- Answer of `net.LookupTXT`; `none` is a lookup that returned an error. -/
  lookupTXT : String → Option (List String)
  /-- Outcome of `os.Open`: an error text, or the scan of the file. -/
  openFile : String → Except String FileScan
  /-- Outcome of `os.Create`: `some err` when the file cannot be created. -/
  createErr : String → Option String

/-- The observable actions of the program, in the order they happen. -/
inductive Event where
  /-- A call of `net.LookupTXT` with this name. -/
  | lookup (name : String)
  /-- Text written to standard output by one `fmt.Print*` call. -/
  | stdout (text : String)
  /-- File created by `os.Create` and the content written to it. -/
  | fileWrite (path : String) (content : String)
  /-- Call of `log.Fatalf`: the message is logged and the process exits. -/
  | fatal (msg : String)
  deriving DecidableEq, Repr

/-- Is this event a DNS lookup. -/
def Event.isLookup : Event → Bool
  | Event.lookup _ => true
  | _ => false

/-- Number of DNS lookups in a trace. -/
def lookupCount (trace : List Event) : Nat :=
  (trace.filter Event.isLookup).length

/-! ## Data model -/

/-- Common DKIM selectors. -/
def commonDKIMSelectors : List String :=
  ["default", "google", "mail", "selector1", "selector2", "dkim", "smtp",
   "k1", "k2", "mx", "email", "eml", "outbound", "inbound", "relay",
   "s1", "s2", "key1", "key2", "domainkey", "dkim1", "dkim2",
   "sendgrid", "mandrill", "postmark", "amazonses", "zoho", "office365"]

/-- RecordCheckResult holds the result of a DNS record check. -/
structure RecordCheckResult where
  Domain : String
  SPF : String
  DKIM : String
  DMARC : String
  Warnings : List String
  deriving DecidableEq, Repr

/-- What one of the three checks returns (status string and warnings),
together with the events it caused. -/
structure CheckOut where
  status : String
  warnings : List String
  trace : List Event
  deriving DecidableEq, Repr

/-- The sentinel status. -/
def notFound : String := "Not Found"

/-- The SPF warning text. -/
def spfWarning : String :=
  "SPF record does not end with '~all' or '-all'. This may allow unauthorized senders."

/-- The DMARC warning for policy `none`. -/
def dmarcNoneWarning : String :=
  "DMARC policy is set to 'none'. This means no action will be taken on failed emails."

/-- The DMARC warning for a policy that is neither `quarantine` nor `reject`. -/
def dmarcWeakWarning : String :=
  "DMARC policy is not set to 'quarantine' or 'reject'. Consider strengthening it."

/-! ## The three checks -/

/-- The `for _, txt := range txtRecords` loop of `checkSPF`. -/
def checkSPFLoop : List String → String × List String
  | [] => (notFound, [])
  | txt :: rest =>
    if hasPrefix txt "v=spf1" then
      let warnings : List String := []
      let warnings :=
        if !contains txt "~all" && !contains txt "-all" then warnings ++ [spfWarning]
        else warnings
      (txt, warnings)
    else checkSPFLoop rest

/-- Source `checkSPF`. -/
def checkSPF (env : Env) (domain : String) : CheckOut :=
  match env.lookupTXT domain with
  | none => ⟨notFound, [], [Event.lookup domain]⟩
  | some txtRecords =>
    let r := checkSPFLoop txtRecords
    ⟨r.1, r.2, [Event.lookup domain]⟩

/-- The inner `for _, txt := range txtRecords` loop of `checkDKIM`: the first
record that begins with `v=DKIM1`, if there is one. -/
def dkimRecordLoop : List String → Option String
  | [] => none
  | txt :: rest => if hasPrefix txt "v=DKIM1" then some txt else dkimRecordLoop rest

/-- The query name `fmt.Sprintf("%s._domainkey.%s", selector, domain)`. -/
def dkimQuery (selector domain : String) : String :=
  selector ++ "._domainkey." ++ domain

/-- The `for _, selector := range commonDKIMSelectors` loop of `checkDKIM`. -/
def checkDKIMLoop (env : Env) (domain : String) : List String → CheckOut
  | [] => ⟨notFound, [], []⟩
  | selector :: rest =>
    let q := dkimQuery selector domain
    match (env.lookupTXT q).bind dkimRecordLoop with
    | some txt => ⟨"Found (" ++ selector ++ "): " ++ txt, [], [Event.lookup q]⟩
    | none =>
      let r := checkDKIMLoop env domain rest
      ⟨r.status, r.warnings, Event.lookup q :: r.trace⟩

/-- Source `checkDKIM`. -/
def checkDKIM (env : Env) (domain : String) : CheckOut :=
  checkDKIMLoop env domain commonDKIMSelectors

/-- The `for _, txt := range txtRecords` loop of `checkDMARC`. -/
def checkDMARCLoop : List String → String × List String
  | [] => (notFound, [])
  | txt :: rest =>
    if hasPrefix txt "v=DMARC1" then
      let warnings : List String := []
      let warnings :=
        if contains txt "p=none" then warnings ++ [dmarcNoneWarning]
        else if !contains txt "p=quarantine" && !contains txt "p=reject" then
          warnings ++ [dmarcWeakWarning]
        else warnings
      (txt, warnings)
    else checkDMARCLoop rest

/-- The query name `fmt.Sprintf("_dmarc.%s", domain)`. -/
def dmarcQuery (domain : String) : String :=
  "_dmarc." ++ domain

/-- Source `checkDMARC`. -/
def checkDMARC (env : Env) (domain : String) : CheckOut :=
  let q := dmarcQuery domain
  match env.lookupTXT q with
  | none => ⟨notFound, [], [Event.lookup q]⟩
  | some txtRecords =>
    let r := checkDMARCLoop txtRecords
    ⟨r.1, r.2, [Event.lookup q]⟩

/-! ## Scanning -/

/-- What `scanDomain` returns, together with the events it caused. -/
structure ScanOut where
  result : RecordCheckResult
  trace : List Event
  deriving DecidableEq, Repr

/-- Source `scanDomain`. -/
def scanDomain (env : Env) (domain : String) : ScanOut :=
  let spf := checkSPF env domain
  let dkim := checkDKIM env domain
  let dmarc := checkDMARC env domain
  let warnings := spf.warnings ++ dkim.warnings
  let warnings := warnings ++ dmarc.warnings
  let result : RecordCheckResult :=
    { Domain := domain, SPF := spf.status, DKIM := dkim.status, DMARC := dmarc.status,
      Warnings := warnings }
  { result := result
    trace :=
      [Event.stdout ("Scanning domain: " ++ domain ++ "\n")] ++ spf.trace ++ dkim.trace ++
        dmarc.trace ++
        [Event.stdout ("SPF: " ++ spf.status ++ "\nDKIM: " ++ dkim.status ++ "\nDMARC: " ++
          dmarc.status ++ "\n\n")] }

/-- Outcome of a function that may end the process through `log.Fatalf`:
`val = none` means the process was terminated (the last event is the fatal
one), otherwise `val` is the returned value. -/
structure Out (α : Type) where
  val : Option α
  trace : List Event

/-- The `for scanner.Scan()` loop of `scanDomainsFromFile`: trims each line
and appends the non-empty ones to `domains`. -/
def collectDomains (domains : List String) : List String → List String
  | [] => domains
  | line :: rest =>
    let domain := trimSpace line
    if domain ≠ "" then collectDomains (domains ++ [domain]) rest
    else collectDomains domains rest

/-- The `for _, domain := range domains` loop of `scanDomainsFromFile`. -/
def scanLoop (env : Env) (results : List RecordCheckResult) (trace : List Event) :
    List String → List RecordCheckResult × List Event
  | [] => (results, trace)
  | domain :: rest =>
    let s := scanDomain env domain
    scanLoop env (results ++ [s.result]) (trace ++ s.trace) rest

/-- Source `scanDomainsFromFile`. -/
def scanDomainsFromFile (env : Env) (filePath : String) : Out (List RecordCheckResult) :=
  match env.openFile filePath with
  | Except.error err => ⟨none, [Event.fatal ("Failed to open file: " ++ err)]⟩
  | Except.ok file =>
    let domains := collectDomains [] file.lines
    match file.scanErr with
    | some err => ⟨none, [Event.fatal ("Error reading file: " ++ err)]⟩
    | none =>
      let r := scanLoop env [] [] domains
      ⟨some r.1, r.2⟩

/-! ## CSV output (`encoding/csv` writer with its default settings) -/

/-- Go `(*csv.Writer).fieldNeedsQuotes` for the comma delimiter. -/
def fieldNeedsQuotes (field : String) : Bool :=
  if field = "" then false
  else if field = "\\." then true
  else if field.data.any (fun c => c = '\n' || c = '\r' || c = '"' || c = ',') then true
  else
    match field.data with
    | [] => false
    | r1 :: _ => isSpace r1

/-- The `for len(field) > 0` loop of `(*csv.Writer).Write` with `UseCRLF`
unset: a double quote is written twice, everything else verbatim. -/
def csvQuoteLoop : List Char → List Char
  | [] => []
  | c :: cs => if c = '"' then '"' :: '"' :: csvQuoteLoop cs else c :: csvQuoteLoop cs

/-- What `(*csv.Writer).Write` emits for one field. -/
def csvWriteField (field : String) : List Char :=
  if fieldNeedsQuotes field then ['"'] ++ csvQuoteLoop field.data ++ ['"']
  else field.data

/-- The `for n, field := range record` loop of `(*csv.Writer).Write`. -/
def csvWriteFields (n : Nat) : List String → List Char
  | [] => []
  | field :: rest =>
    (if n > 0 then [','] else []) ++ csvWriteField field ++ csvWriteFields (n + 1) rest

/-- Go `(*csv.Writer).Write(record)`: the fields, then a line feed. -/
def csvWrite (record : List String) : List Char :=
  csvWriteFields 0 record ++ ['\n']

/-- The header record. -/
def csvHeader : List String := ["Domain", "SPF", "DKIM", "DMARC", "Warnings"]

/-- The record `saveResultsToCSV` writes for one result. -/
def csvRow (result : RecordCheckResult) : List String :=
  let warnings := join result.Warnings "; "
  [result.Domain, result.SPF, result.DKIM, result.DMARC, warnings]

/-- The `for _, result := range results` loop of `saveResultsToCSV`. -/
def csvRowsLoop : List RecordCheckResult → List Char
  | [] => []
  | result :: rest => csvWrite (csvRow result) ++ csvRowsLoop rest

/-- Everything `saveResultsToCSV` writes to the file. -/
def csvContent (results : List RecordCheckResult) : String :=
  String.mk (csvWrite csvHeader ++ csvRowsLoop results)

/-- Source `saveResultsToCSV`.  Writes to a file that could be created are
taken to succeed (the program ignores the errors of `Write` and `Flush`). -/
def saveResultsToCSV (env : Env) (results : List RecordCheckResult) (filePath : String) :
    Out Unit :=
  match env.createErr filePath with
  | some err => ⟨none, [Event.fatal ("Failed to create CSV file: " ++ err)]⟩
  | none => ⟨some (), [Event.fileWrite filePath (csvContent results)]⟩

/-! ## Console summary -/

/-- The `for _, warning := range result.Warnings` loops of `printSummary`:
one line for each warning that contains `tag`. -/
def summaryWarnings (tag : String) : List String → List Event
  | [] => []
  | warning :: rest =>
    if contains warning tag then
      Event.stdout ("    - " ++ warning ++ "\n") :: summaryWarnings tag rest
    else summaryWarnings tag rest

/-- The `SPF Summary` block of `printSummary`. -/
def summarySPF (result : RecordCheckResult) : List Event :=
  if result.SPF ≠ "Not Found" then
    [Event.stdout "[✓] SPF Record Found\n"] ++
      (if result.Warnings.length > 0 then
        [Event.stdout "    Warnings:\n"] ++ summaryWarnings "SPF" result.Warnings
      else [])
  else
    [Event.stdout "[✗] SPF Record Missing\n",
     Event.stdout "    Suggestion: Add an SPF record to your DNS settings. Example: 'v=spf1 include:_spf.google.com ~all'\n"]

/-- The `DKIM Summary` block of `printSummary`. -/
def summaryDKIM (result : RecordCheckResult) : List Event :=
  if result.DKIM ≠ "Not Found" then [Event.stdout "[✓] DKIM Record Found\n"]
  else
    [Event.stdout "[✗] DKIM Record Missing\n",
     Event.stdout "    Suggestion: Add a DKIM record to your DNS settings. Example: 'v=DKIM1; k=rsa; p=<public_key>'\n"]

/-- The `DMARC Summary` block of `printSummary`. -/
def summaryDMARC (result : RecordCheckResult) : List Event :=
  if result.DMARC ≠ "Not Found" then
    [Event.stdout "[✓] DMARC Record Found\n"] ++
      (if result.Warnings.length > 0 then
        [Event.stdout "    Warnings:\n"] ++ summaryWarnings "DMARC" result.Warnings
      else [])
  else
    [Event.stdout "[✗] DMARC Record Missing\n",
     Event.stdout "    Suggestion: Add a DMARC record to your DNS settings. Example: 'v=DMARC1; p=quarantine; rua=mailto:dmarc-reports@example.com'\n"]

/-- The `for _, result := range results` loop of `printSummary`. -/
def printSummaryLoop : List RecordCheckResult → List Event
  | [] => []
  | result :: rest =>
    [Event.stdout ("\nDomain: " ++ result.Domain ++ "\n")] ++ summarySPF result ++
      summaryDKIM result ++ summaryDMARC result ++ printSummaryLoop rest

/-- Source `printSummary`. -/
def printSummary (results : List RecordCheckResult) : List Event :=
  Event.stdout "\n=== Summary of Findings ===\n" :: printSummaryLoop results

/-- Source `printHelp`. -/
def printHelp : List Event :=
  [Event.stdout "Usage:\n",
   Event.stdout "  dns-scanner [flags]\n",
   Event.stdout "\nFlags:\n",
   Event.stdout "  -d string\n",
   Event.stdout "        Scan a single domain (e.g., example.com)\n",
   Event.stdout "  -f string\n",
   Event.stdout "        Scan domains from a file (one domain per line)\n",
   Event.stdout "  -o string\n",
   Event.stdout "        Save results to a CSV file\n",
   Event.stdout "\nExample Usage:\n",
   Event.stdout "  dns-scanner -d example.com\n",
   Event.stdout "  dns-scanner -f domains.txt\n",
   Event.stdout "  dns-scanner -f domains.txt -o results.csv\n"]

/-! ## The command line -/

/-- The parsed flags `-d`, `-f` and `-o` (the empty string when absent). -/
structure Flags where
  domainFlag : String
  fileFlag : String
  outputFlag : String
  deriving DecidableEq, Repr

/-- The part of `main` that builds `results` (from `var results` up to and
including the `-f` block): the list that is then handed to `printSummary` and
`saveResultsToCSV`. -/
def mainResults (env : Env) (flags : Flags) : Out (List RecordCheckResult) :=
  let results : List RecordCheckResult := []
  -- Scan a single domain
  let s1 : List RecordCheckResult × List Event :=
    if flags.domainFlag ≠ "" then
      let s := scanDomain env flags.domainFlag
      (results ++ [s.result], s.trace)
    else (results, [])
  -- Scan domains from a file
  if flags.fileFlag ≠ "" then
    let r := scanDomainsFromFile env flags.fileFlag
    ⟨r.val, s1.2 ++ r.trace⟩
  else ⟨some s1.1, s1.2⟩

/-- Source `main`: the events of a whole run. -/
def main (env : Env) (flags : Flags) : List Event :=
  if flags.domainFlag = "" ∧ flags.fileFlag = "" ∧ flags.outputFlag = "" then printHelp
  else
    let r := mainResults env flags
    match r.val with
    | none => r.trace
    | some results =>
      let t := r.trace ++ printSummary results
      if flags.outputFlag ≠ "" then
        let w := saveResultsToCSV env results flags.outputFlag
        match w.val with
        | none => t ++ w.trace
        | some _ => t ++ w.trace ++ [Event.stdout ("Results saved to " ++ flags.outputFlag ++ "\n")]
      else t

/-! ## Example environments -/

/-- An environment with the given resolver, no readable file, and every file
creatable. -/
def resolverEnv (lookupTXT : String → Option (List String)) : Env :=
  { lookupTXT := lookupTXT
    openFile := fun _ => Except.error "no such file or directory"
    createErr := fun _ => none }

/-- A resolver that answers for `example.com` and its `_dmarc` and `google`
DKIM names, has no records for the `default` DKIM name, and fails elsewhere. -/
def sampleEnv : Env :=
  resolverEnv fun name =>
    if name = "example.com" then
      some ["google-site-verification=abc", "v=spf1 include:_spf.google.com",
            "v=spf1 -all"]
    else if name = "_dmarc.example.com" then
      some ["v=DMARC1; p=none; rua=mailto:x@example.com", "v=DMARC1; p=reject"]
    else if name = "default._domainkey.example.com" then some []
    else if name = "google._domainkey.example.com" then some ["v=DKIM1; k=rsa; p=ABC"]
    else none

/-- A resolver for which every lookup fails. -/
def deadEnv : Env := resolverEnv fun _ => none

/-- An environment whose resolver always fails, with a readable file
`domains.txt` of four lines, a file `broken.txt` whose reading fails, and no
other file. -/
def fileEnv : Env :=
  { lookupTXT := fun _ => none
    openFile := fun path =>
      if path = "domains.txt" then Except.ok ⟨["a.com", "", "  ", "b.com"], none⟩
      else if path = "broken.txt" then Except.ok ⟨["a.com"], some "input/output error"⟩
      else Except.error "no such file or directory"
    createErr := fun _ => none }

/-! ## A reference CSV reader (not part of the program)

The reader against which the written file is checked: it follows the rules of
RFC 4180, accepting a line feed as well as carriage return and line feed as
the end of a record. -/

/-- States of the reference CSV reader. -/
inductive CsvState where
  /-- At the start of a record. -/
  | recordStart
  /-- At the start of a field, after a comma. -/
  | fieldStart
  /-- Inside a field that is not quoted. -/
  | unquoted
  /-- Inside a quoted field. -/
  | quoted
  /-- Inside a quoted field, right after a double quote. -/
  | quoteSeen
  /-- After a carriage return that ended a record. -/
  | crSeen
  /-- The text is not well-formed CSV. -/
  | invalid
  deriving DecidableEq, Repr

/-- The reference CSV reader: its state, the characters of the field and the
fields of the record being read, and the records read so far. -/
structure CsvReader where
  state : CsvState
  field : List Char
  record : List String
  records : List (List String)
  deriving DecidableEq, Repr

/-- A comma ends the field being read. -/
def CsvReader.endField (p : CsvReader) : CsvReader :=
  { state := CsvState.fieldStart, field := [], record := p.record ++ [String.mk p.field],
    records := p.records }

/-- A line break ends the field and the record being read. -/
def CsvReader.endRecord (p : CsvReader) (next : CsvState) : CsvReader :=
  { state := next, field := [], record := [],
    records := p.records ++ [p.record ++ [String.mk p.field]] }

/-- One character of input for the reference CSV reader (RFC 4180: fields
separated by commas, records by a line feed or by carriage return and line
feed; a field in double quotes may hold commas, line breaks, and double quotes
written twice; every character of a field counts, blanks included). -/
def csvStep (p : CsvReader) (c : Char) : CsvReader :=
  match p.state with
  | CsvState.recordStart | CsvState.fieldStart =>
    if c = '"' then { p with state := CsvState.quoted }
    else if c = ',' then p.endField
    else if c = '\n' then p.endRecord CsvState.recordStart
    else if c = '\r' then p.endRecord CsvState.crSeen
    else { p with state := CsvState.unquoted, field := p.field ++ [c] }
  | CsvState.unquoted =>
    if c = '"' then { p with state := CsvState.invalid }
    else if c = ',' then p.endField
    else if c = '\n' then p.endRecord CsvState.recordStart
    else if c = '\r' then p.endRecord CsvState.crSeen
    else { p with field := p.field ++ [c] }
  | CsvState.quoted =>
    if c = '"' then { p with state := CsvState.quoteSeen }
    else { p with field := p.field ++ [c] }
  | CsvState.quoteSeen =>
    if c = '"' then { p with state := CsvState.quoted, field := p.field ++ ['"'] }
    else if c = ',' then p.endField
    else if c = '\n' then p.endRecord CsvState.recordStart
    else if c = '\r' then p.endRecord CsvState.crSeen
    else { p with state := CsvState.invalid }
  | CsvState.crSeen =>
    if c = '\n' then { p with state := CsvState.recordStart }
    else { p with state := CsvState.invalid }
  | CsvState.invalid => p

/-- The reference CSV reader run over a text: the records of the text, or
`none` when the text is not well-formed. -/
def parseCSV (text : String) : Option (List (List String)) :=
  let p := text.data.foldl csvStep ⟨CsvState.recordStart, [], [], []⟩
  match p.state with
  | CsvState.recordStart => some p.records
  | CsvState.fieldStart | CsvState.unquoted | CsvState.quoteSeen =>
    some (p.records ++ [p.record ++ [String.mk p.field]])
  | CsvState.quoted | CsvState.crSeen | CsvState.invalid => none

/-- The reader is where a field may end. -/
def CsvReader.atFieldEnd (q : CsvReader) : Prop :=
  q.state = CsvState.recordStart ∨ q.state = CsvState.fieldStart ∨
    q.state = CsvState.unquoted ∨ q.state = CsvState.quoteSeen

instance (q : CsvReader) : Decidable q.atFieldEnd := by
  unfold CsvReader.atFieldEnd
  infer_instance

/-- Is the character one that forces a field into quotes. -/
def csvSpecial (c : Char) : Bool := c = '\n' || c = '\r' || c = '"' || c = ','

/-! ## Lemmas about the loops of the three checks -/

theorem checkSPFLoop_none (recs : List String)
    (h : ∀ r ∈ recs, hasPrefix r "v=spf1" = false) :
    checkSPFLoop recs = (notFound, []) := by
  induction recs with
  | nil => rfl
  | cons r rest ih =>
    have hr : hasPrefix r "v=spf1" = false := h r (List.mem_cons_self _ _)
    have hrest : ∀ x ∈ rest, hasPrefix x "v=spf1" = false :=
      fun x hx => h x (List.mem_cons_of_mem _ hx)
    simp [checkSPFLoop, hr, ih hrest]

theorem checkSPFLoop_first (before after : List String) (txt : String)
    (hb : ∀ r ∈ before, hasPrefix r "v=spf1" = false) (ht : hasPrefix txt "v=spf1" = true) :
    checkSPFLoop (before ++ txt :: after) =
      (txt, if !contains txt "~all" && !contains txt "-all" then [spfWarning] else []) := by
  induction before with
  | nil => simp [checkSPFLoop, ht]
  | cons r rest ih =>
    have hr : hasPrefix r "v=spf1" = false := hb r (List.mem_cons_self _ _)
    have hrest : ∀ x ∈ rest, hasPrefix x "v=spf1" = false :=
      fun x hx => hb x (List.mem_cons_of_mem _ hx)
    have h := ih hrest
    simp only [List.cons_append, checkSPFLoop, hr]
    simpa using h

theorem checkDMARCLoop_none (recs : List String)
    (h : ∀ r ∈ recs, hasPrefix r "v=DMARC1" = false) :
    checkDMARCLoop recs = (notFound, []) := by
  induction recs with
  | nil => rfl
  | cons r rest ih =>
    have hr : hasPrefix r "v=DMARC1" = false := h r (List.mem_cons_self _ _)
    have hrest : ∀ x ∈ rest, hasPrefix x "v=DMARC1" = false :=
      fun x hx => h x (List.mem_cons_of_mem _ hx)
    simp [checkDMARCLoop, hr, ih hrest]

theorem checkDMARCLoop_first (before after : List String) (txt : String)
    (hb : ∀ r ∈ before, hasPrefix r "v=DMARC1" = false) (ht : hasPrefix txt "v=DMARC1" = true) :
    checkDMARCLoop (before ++ txt :: after) =
      (txt, if contains txt "p=none" then [dmarcNoneWarning]
            else if !contains txt "p=quarantine" && !contains txt "p=reject" then
              [dmarcWeakWarning]
            else []) := by
  induction before with
  | nil => simp [checkDMARCLoop, ht]
  | cons r rest ih =>
    have hr : hasPrefix r "v=DMARC1" = false := hb r (List.mem_cons_self _ _)
    have hrest : ∀ x ∈ rest, hasPrefix x "v=DMARC1" = false :=
      fun x hx => hb x (List.mem_cons_of_mem _ hx)
    have h := ih hrest
    simp only [List.cons_append, checkDMARCLoop, hr]
    simpa using h

theorem dkimRecordLoop_none (recs : List String)
    (h : ∀ r ∈ recs, hasPrefix r "v=DKIM1" = false) : dkimRecordLoop recs = none := by
  induction recs with
  | nil => rfl
  | cons r rest ih =>
    have hr : hasPrefix r "v=DKIM1" = false := h r (List.mem_cons_self _ _)
    have hrest : ∀ x ∈ rest, hasPrefix x "v=DKIM1" = false :=
      fun x hx => h x (List.mem_cons_of_mem _ hx)
    simp [dkimRecordLoop, hr, ih hrest]

theorem dkimRecordLoop_first (before after : List String) (txt : String)
    (hb : ∀ r ∈ before, hasPrefix r "v=DKIM1" = false) (ht : hasPrefix txt "v=DKIM1" = true) :
    dkimRecordLoop (before ++ txt :: after) = some txt := by
  induction before with
  | nil => simp [dkimRecordLoop, ht]
  | cons r rest ih =>
    have hr : hasPrefix r "v=DKIM1" = false := hb r (List.mem_cons_self _ _)
    have hrest : ∀ x ∈ rest, hasPrefix x "v=DKIM1" = false :=
      fun x hx => hb x (List.mem_cons_of_mem _ hx)
    simp [dkimRecordLoop, hr, ih hrest]

/-- A selector whose lookup fails, or whose records do not begin with
`v=DKIM1`, contributes nothing but its lookup. -/
theorem dkim_selector_skipped (env : Env) (domain selector : String)
    (h : ∀ recs, env.lookupTXT (dkimQuery selector domain) = some recs →
      ∀ r ∈ recs, hasPrefix r "v=DKIM1" = false) :
    (env.lookupTXT (dkimQuery selector domain)).bind dkimRecordLoop = none := by
  cases hl : env.lookupTXT (dkimQuery selector domain) with
  | none => rfl
  | some recs => exact dkimRecordLoop_none recs (h recs hl)

theorem checkDKIMLoop_none (env : Env) (domain : String) (sels : List String)
    (h : ∀ s ∈ sels, ∀ recs, env.lookupTXT (dkimQuery s domain) = some recs →
      ∀ r ∈ recs, hasPrefix r "v=DKIM1" = false) :
    checkDKIMLoop env domain sels =
      ⟨notFound, [], sels.map (fun s => Event.lookup (dkimQuery s domain))⟩ := by
  induction sels with
  | nil => rfl
  | cons s rest ih =>
    have hs := dkim_selector_skipped env domain s (h s (List.mem_cons_self _ _))
    have hrest := ih (fun x hx => h x (List.mem_cons_of_mem _ hx))
    simp [checkDKIMLoop, hs, hrest]

theorem checkDKIMLoop_first (env : Env) (domain : String) (before after : List String)
    (selector txt : String)
    (hb : ∀ s ∈ before, ∀ recs, env.lookupTXT (dkimQuery s domain) = some recs →
      ∀ r ∈ recs, hasPrefix r "v=DKIM1" = false)
    (hs : (env.lookupTXT (dkimQuery selector domain)).bind dkimRecordLoop = some txt) :
    checkDKIMLoop env domain (before ++ selector :: after) =
      ⟨"Found (" ++ selector ++ "): " ++ txt, [],
        (before ++ [selector]).map (fun s => Event.lookup (dkimQuery s domain))⟩ := by
  induction before with
  | nil => simp [checkDKIMLoop, hs]
  | cons s rest ih =>
    have h1 := dkim_selector_skipped env domain s (hb s (List.mem_cons_self _ _))
    have hrest := ih (fun x hx => hb x (List.mem_cons_of_mem _ hx))
    simp [checkDKIMLoop, h1, hrest]

theorem checkDKIMLoop_warnings (env : Env) (domain : String) (sels : List String) :
    (checkDKIMLoop env domain sels).warnings = [] := by
  induction sels with
  | nil => rfl
  | cons s rest ih =>
    simp only [checkDKIMLoop]
    split <;> simp [ih]

theorem checkDKIMLoop_lookups (env : Env) (domain : String) (sels : List String) :
    ∃ n, n ≤ sels.length ∧ 
      (checkDKIMLoop env domain sels).trace =
        (sels.take n).map (fun s => Event.lookup (dkimQuery s domain)) := by
  induction sels with
  | nil => exact ⟨0, le_refl _, rfl⟩
  | cons s rest ih =>
    obtain ⟨n, hn, ht⟩ := ih
    simp only [checkDKIMLoop]
    split
    · exact ⟨1, by simp, by simp⟩
    · exact ⟨n + 1, by simpa using hn, by simp [ht]⟩

/-! ## Lemmas about the string functions -/

theorem hasPrefix_append (pre t : String) : hasPrefix (pre ++ t) pre = true := by
  simp [hasPrefix, String.data_append]

theorem containsFrom_iff (sub l : List Char) : containsFrom sub l = true ↔ sub <:+: l := by
  induction l with
  | nil => simp [containsFrom]
  | cons c cs ih => simp [containsFrom, ih, List.infix_cons_iff]

theorem contains_append_mid (a sub b : String) : contains (a ++ sub ++ b) sub = true := by
  rw [contains, containsFrom_iff]
  exact ⟨a.data, b.data, by simp [String.data_append]⟩

/-! ## C1: `checkSPF` -/

/-- C1: `checkSPF` returns `Not Found` without warnings when the lookup fails
or no TXT record begins with `v=spf1`; otherwise the status is the first record
in resolver order that begins with `v=spf1` (whatever follows it), with exactly
the one SPF warning when that record contains neither `~all` nor `-all`, and no
warning when it contains either of them anywhere in its text. -/
theorem checkSPF_contract (env : Env) (domain : String) :
    ((env.lookupTXT domain = none ∨
        ∃ recs, env.lookupTXT domain = some recs ∧
          ∀ r ∈ recs, hasPrefix r "v=spf1" = false) →
      (checkSPF env domain).status = "Not Found" ∧ (checkSPF env domain).warnings = []) ∧
    (∀ before txt after, env.lookupTXT domain = some (before ++ txt :: after) →
      (∀ r ∈ before, hasPrefix r "v=spf1" = false) → hasPrefix txt "v=spf1" = true →
      (checkSPF env domain).status = txt ∧
      ((contains txt "~all" = false ∧ contains txt "-all" = false) →
        (checkSPF env domain).warnings =
          ["SPF record does not end with '~all' or '-all'. This may allow unauthorized senders."]) ∧
      ((contains txt "~all" = true ∨ contains txt "-all" = true) →
        (checkSPF env domain).warnings = [])) ∧
    (∀ a b after, env.lookupTXT domain = some (("v=spf1" ++ a ++ "-all" ++ b) :: after) →
      (checkSPF env domain).status = "v=spf1" ++ a ++ "-all" ++ b ∧
      (checkSPF env domain).warnings = []) ∧
    (∀ a b after, env.lookupTXT domain = some (("v=spf1" ++ a ++ "~all" ++ b) :: after) →
      (checkSPF env domain).status = "v=spf1" ++ a ++ "~all" ++ b ∧
      (checkSPF env domain).warnings = []) := by
  have found : ∀ before txt after, env.lookupTXT domain = some (before ++ txt :: after) →
      (∀ r ∈ before, hasPrefix r "v=spf1" = false) → hasPrefix txt "v=spf1" = true →
      (checkSPF env domain).status = txt ∧
      (checkSPF env domain).warnings =
        if !contains txt "~all" && !contains txt "-all" then [spfWarning] else [] := by
    intro before txt after hl hb ht
    simp [checkSPF, hl, checkSPFLoop_first before after txt hb ht]
  refine ⟨?_, ?_, ?_, ?_⟩
  · rintro (h | ⟨recs, hl, hn⟩)
    · simp [checkSPF, h, notFound]
    · simp [checkSPF, hl, checkSPFLoop_none recs hn, notFound]
  · intro before txt after hl hb ht
    obtain ⟨h1, h2⟩ := found before txt after hl hb ht
    refine ⟨h1, ?_, ?_⟩
    · rintro ⟨ha, hb⟩
      simp [h2, ha, hb, spfWarning]
    · rintro (ha | hb)
      · simp [h2, ha]
      · simp [h2, hb]
  · intro a b after hl
    have hp : hasPrefix ("v=spf1" ++ a ++ "-all" ++ b) "v=spf1" = true := by
      rw [String.append_assoc, String.append_assoc]
      exact hasPrefix_append _ _
    obtain ⟨h1, h2⟩ := found [] _ after hl (by simp) hp
    refine ⟨h1, ?_⟩
    simp [h2, contains_append_mid ("v=spf1" ++ a) "-all" b]
  · intro a b after hl
    have hp : hasPrefix ("v=spf1" ++ a ++ "~all" ++ b) "v=spf1" = true := by
      rw [String.append_assoc, String.append_assoc]
      exact hasPrefix_append _ _
    obtain ⟨h1, h2⟩ := found [] _ after hl (by simp) hp
    refine ⟨h1, ?_⟩
    simp [h2, contains_append_mid ("v=spf1" ++ a) "~all" b]

/-- C1 at concrete inputs: a failed lookup, a first matching record without
`all` mechanism followed by a later matching record, and a record with `-all`
in the middle of its text. -/
theorem checkSPF_contract_witness :
    ((checkSPF sampleEnv "nowhere.example").status = "Not Found" ∧
      (checkSPF sampleEnv "nowhere.example").warnings = []) ∧
    ((checkSPF sampleEnv "example.com").status = "v=spf1 include:_spf.google.com" ∧
      (checkSPF sampleEnv "example.com").warnings =
        ["SPF record does not end with '~all' or '-all'. This may allow unauthorized senders."]) ∧
    ((checkSPF (resolverEnv fun _ => some ["v=spf1 -all ip4:192.0.2.1"]) "a.com").status =
        "v=spf1" ++ " " ++ "-all" ++ " ip4:192.0.2.1" ∧
      (checkSPF (resolverEnv fun _ => some ["v=spf1 -all ip4:192.0.2.1"]) "a.com").warnings = []) :=
  ⟨(checkSPF_contract sampleEnv "nowhere.example").1 (Or.inl (by decide)),
   ⟨((checkSPF_contract sampleEnv "example.com").2.1 ["google-site-verification=abc"]
        "v=spf1 include:_spf.google.com" ["v=spf1 -all"] (by decide) (by decide) (by decide)).1,
    ((checkSPF_contract sampleEnv "example.com").2.1 ["google-site-verification=abc"]
        "v=spf1 include:_spf.google.com" ["v=spf1 -all"] (by decide) (by decide) (by decide)).2.1
      (by decide)⟩,
   (checkSPF_contract (resolverEnv fun _ => some ["v=spf1 -all ip4:192.0.2.1"]) "a.com").2.2.1
      " " " ip4:192.0.2.1" [] (by decide)⟩

/-! ## C2: `checkDMARC` -/

/-- C2: `checkDMARC` queries `_dmarc.<domain>` and returns `Not Found` without
warnings when the lookup fails or no record begins with `v=DMARC1`; otherwise
it returns the first record beginning with `v=DMARC1` and at most one warning
by strict priority: the `p=none` warning when the record contains `p=none`,
else the weak-policy warning when it contains neither `p=quarantine` nor
`p=reject`, else none.  The three records named in the claim behave as it
says (the last one has `p=none` only inside `sp=none`). -/
theorem checkDMARC_contract (env : Env) (domain : String) :
    ((env.lookupTXT ("_dmarc." ++ domain) = none ∨
        ∃ recs, env.lookupTXT ("_dmarc." ++ domain) = some recs ∧
          ∀ r ∈ recs, hasPrefix r "v=DMARC1" = false) →
      (checkDMARC env domain).status = "Not Found" ∧ (checkDMARC env domain).warnings = []) ∧
    (∀ before txt after, env.lookupTXT ("_dmarc." ++ domain) = some (before ++ txt :: after) →
      (∀ r ∈ before, hasPrefix r "v=DMARC1" = false) → hasPrefix txt "v=DMARC1" = true →
      (checkDMARC env domain).status = txt ∧
      (checkDMARC env domain).warnings.length ≤ 1 ∧
      (contains txt "p=none" = true →
        (checkDMARC env domain).warnings =
          ["DMARC policy is set to 'none'. This means no action will be taken on failed emails."]) ∧
      (contains txt "p=none" = false → contains txt "p=quarantine" = false →
        contains txt "p=reject" = false →
        (checkDMARC env domain).warnings =
          ["DMARC policy is not set to 'quarantine' or 'reject'. Consider strengthening it."]) ∧
      (contains txt "p=none" = false →
        (contains txt "p=quarantine" = true ∨ contains txt "p=reject" = true) →
        (checkDMARC env domain).warnings = [])) ∧
    (∀ after, env.lookupTXT ("_dmarc." ++ domain) =
        some ("v=DMARC1; p=none; rua=mailto:x@example.com" :: after) →
      (checkDMARC env domain).warnings =
        ["DMARC policy is set to 'none'. This means no action will be taken on failed emails."]) ∧
    (∀ after, env.lookupTXT ("_dmarc." ++ domain) = some ("v=DMARC1; p=reject" :: after) →
      (checkDMARC env domain).warnings = []) ∧
    (∀ after, env.lookupTXT ("_dmarc." ++ domain) =
        some ("v=DMARC1; p=reject; sp=none" :: after) →
      (checkDMARC env domain).warnings =
        ["DMARC policy is set to 'none'. This means no action will be taken on failed emails."]) := by
  have found : ∀ before txt after,
      env.lookupTXT ("_dmarc." ++ domain) = some (before ++ txt :: after) →
      (∀ r ∈ before, hasPrefix r "v=DMARC1" = false) → hasPrefix txt "v=DMARC1" = true →
      (checkDMARC env domain).status = txt ∧
      (checkDMARC env domain).warnings =
        if contains txt "p=none" then [dmarcNoneWarning]
        else if !contains txt "p=quarantine" && !contains txt "p=reject" then
          [dmarcWeakWarning]
        else [] := by
    intro before txt after hl hb ht
    simp [checkDMARC, dmarcQuery, hl, checkDMARCLoop_first before after txt hb ht]
  refine ⟨?_, ?_, ?_, ?_, ?_⟩
  · rintro (h | ⟨recs, hl, hn⟩)
    · simp [checkDMARC, dmarcQuery, h, notFound]
    · simp [checkDMARC, dmarcQuery, hl, checkDMARCLoop_none recs hn, notFound]
  · intro before txt after hl hb ht
    obtain ⟨h1, h2⟩ := found before txt after hl hb ht
    refine ⟨h1, ?_, ?_, ?_, ?_⟩
    · rw [h2]
      split
      · simp
      · split <;> simp
    · intro ha
      simp [h2, ha, dmarcNoneWarning]
    · intro ha hq hr
      simp [h2, ha, hq, hr, dmarcWeakWarning]
    · rintro ha (hq | hr)
      · simp [h2, ha, hq]
      · simp [h2, ha, hr]
  · intro after hl
    obtain ⟨_, h2⟩ := found [] _ after hl (by simp) (by decide)
    rw [h2]
    decide
  · intro after hl
    obtain ⟨_, h2⟩ := found [] _ after hl (by simp) (by decide)
    rw [h2]
    decide
  · intro after hl
    obtain ⟨_, h2⟩ := found [] _ after hl (by simp) (by decide)
    rw [h2]
    decide

/-- C2 at concrete inputs: a failed lookup, and a `p=none` record that is
followed by a stricter record which is never looked at. -/
theorem checkDMARC_contract_witness :
    ((checkDMARC sampleEnv "nowhere.example").status = "Not Found" ∧
      (checkDMARC sampleEnv "nowhere.example").warnings = []) ∧
    ((checkDMARC sampleEnv "example.com").status =
        "v=DMARC1; p=none; rua=mailto:x@example.com" ∧
      (checkDMARC sampleEnv "example.com").warnings =
        ["DMARC policy is set to 'none'. This means no action will be taken on failed emails."]) ∧
    (checkDMARC (resolverEnv fun _ => some ["v=DMARC1; p=reject; sp=none"]) "a.com").warnings =
      ["DMARC policy is set to 'none'. This means no action will be taken on failed emails."] :=
  ⟨(checkDMARC_contract sampleEnv "nowhere.example").1 (Or.inl (by decide)),
   ⟨((checkDMARC_contract sampleEnv "example.com").2.1 []
        "v=DMARC1; p=none; rua=mailto:x@example.com" ["v=DMARC1; p=reject"]
        (by decide) (by decide) (by decide)).1,
    ((checkDMARC_contract sampleEnv "example.com").2.1 []
        "v=DMARC1; p=none; rua=mailto:x@example.com" ["v=DMARC1; p=reject"]
        (by decide) (by decide) (by decide)).2.2.1 (by decide)⟩,
   (checkDMARC_contract (resolverEnv fun _ => some ["v=DMARC1; p=reject; sp=none"])
      "a.com").2.2.2.2 [] (by decide)⟩

/-! ## C3: `checkDKIM` -/

/-- C3: `checkDKIM` probes `<selector>._domainkey.<domain>` in the order of
`commonDKIMSelectors`.  It never produces a warning.  If `selector` is the
earliest selector whose lookup succeeds with a record beginning with `v=DKIM1`
(every earlier selector failed or had no such record) and `txt` is the first
such record, the status is `Found (selector): txt` and the lookups made are
exactly those of the selectors up to and including `selector`, in order.  If no
selector matches, the status is `Not Found`, after every selector was queried
once.  With no records for `default` and `v=DKIM1; k=rsa; p=ABC` for `google`
the status is `Found (google): v=DKIM1; k=rsa; p=ABC`. -/
theorem checkDKIM_contract (env : Env) (domain : String) :
    (checkDKIM env domain).warnings = [] ∧
    (∀ before selector after rbefore txt rafter,
      commonDKIMSelectors = before ++ selector :: after →
      (∀ s ∈ before, ∀ recs, env.lookupTXT (s ++ "._domainkey." ++ domain) = some recs →
        ∀ r ∈ recs, hasPrefix r "v=DKIM1" = false) →
      env.lookupTXT (selector ++ "._domainkey." ++ domain) = some (rbefore ++ txt :: rafter) →
      (∀ r ∈ rbefore, hasPrefix r "v=DKIM1" = false) → hasPrefix txt "v=DKIM1" = true →
      (checkDKIM env domain).status = "Found (" ++ selector ++ "): " ++ txt ∧
      (checkDKIM env domain).trace =
        (before ++ [selector]).map (fun s => Event.lookup (s ++ "._domainkey." ++ domain))) ∧
    ((∀ s ∈ commonDKIMSelectors, ∀ recs,
        env.lookupTXT (s ++ "._domainkey." ++ domain) = some recs →
        ∀ r ∈ recs, hasPrefix r "v=DKIM1" = false) →
      (checkDKIM env domain).status = "Not Found" ∧
      (checkDKIM env domain).trace =
        commonDKIMSelectors.map (fun s => Event.lookup (s ++ "._domainkey." ++ domain))) ∧
    (env.lookupTXT ("default" ++ "._domainkey." ++ domain) = some [] →
      env.lookupTXT ("google" ++ "._domainkey." ++ domain) = some ["v=DKIM1; k=rsa; p=ABC"] →
      (checkDKIM env domain).status = "Found (google): v=DKIM1; k=rsa; p=ABC" ∧
      (checkDKIM env domain).trace =
        [Event.lookup ("default" ++ "._domainkey." ++ domain),
         Event.lookup ("google" ++ "._domainkey." ++ domain)]) := by
  have found : ∀ before selector after rbefore txt rafter,
      commonDKIMSelectors = before ++ selector :: after →
      (∀ s ∈ before, ∀ recs, env.lookupTXT (s ++ "._domainkey." ++ domain) = some recs →
        ∀ r ∈ recs, hasPrefix r "v=DKIM1" = false) →
      env.lookupTXT (selector ++ "._domainkey." ++ domain) = some (rbefore ++ txt :: rafter) →
      (∀ r ∈ rbefore, hasPrefix r "v=DKIM1" = false) → hasPrefix txt "v=DKIM1" = true →
      (checkDKIM env domain).status = "Found (" ++ selector ++ "): " ++ txt ∧
      (checkDKIM env domain).trace =
        (before ++ [selector]).map (fun s => Event.lookup (s ++ "._domainkey." ++ domain)) := by
    intro before selector after rbefore txt rafter hsel hb hl hrb ht
    have hs : (env.lookupTXT (dkimQuery selector domain)).bind dkimRecordLoop = some txt := by
      show (env.lookupTXT (selector ++ "._domainkey." ++ domain)).bind dkimRecordLoop = some txt
      rw [hl]
      exact dkimRecordLoop_first rbefore rafter txt hrb ht
    have h := checkDKIMLoop_first env domain before after selector txt hb hs
    rw [checkDKIM, hsel, h]
    exact ⟨rfl, rfl⟩
  refine ⟨checkDKIMLoop_warnings env domain _, found, ?_, ?_⟩
  · intro h
    rw [checkDKIM, checkDKIMLoop_none env domain _ h]
    exact ⟨rfl, rfl⟩
  · intro hd hg
    have h := found ["default"] "google" (commonDKIMSelectors.drop 2) []
      "v=DKIM1; k=rsa; p=ABC" [] (by decide)
      (by
        intro s hs recs hl r hr
        rw [List.mem_singleton] at hs
        subst hs
        rw [hd] at hl
        cases hl
        cases hr)
      hg (by simp) (by decide)
    exact h

/-- C3 at a concrete resolver: `default` has no records, `google` has one. -/
theorem checkDKIM_contract_witness :
    ((checkDKIM sampleEnv "example.com").status = "Found (google): v=DKIM1; k=rsa; p=ABC" ∧
      (checkDKIM sampleEnv "example.com").trace =
        [Event.lookup "default._domainkey.example.com",
         Event.lookup "google._domainkey.example.com"]) ∧
    ((checkDKIM deadEnv "example.com").status = "Not Found" ∧
      (checkDKIM deadEnv "example.com").trace =
        commonDKIMSelectors.map (fun s => Event.lookup (s ++ "._domainkey." ++ "example.com"))) :=
  ⟨(checkDKIM_contract sampleEnv "example.com").2.2.2 (by decide) (by decide),
   (checkDKIM_contract deadEnv "example.com").2.2.1
     (fun _ _ recs hl => by cases hl)⟩

/-! ## C5: `scanDomain` -/

theorem checkSPFLoop_warnings_le (recs : List String) : (checkSPFLoop recs).2.length ≤ 1 := by
  induction recs with
  | nil => simp [checkSPFLoop]
  | cons r rest ih =>
    simp only [checkSPFLoop]
    split
    · split <;> simp
    · exact ih

theorem checkDMARCLoop_warnings_le (recs : List String) :
    (checkDMARCLoop recs).2.length ≤ 1 := by
  induction recs with
  | nil => simp [checkDMARCLoop]
  | cons r rest ih =>
    simp only [checkDMARCLoop]
    split
    · split
      · simp
      · split <;> simp
    · exact ih

theorem checkSPF_warnings_le (env : Env) (domain : String) :
    (checkSPF env domain).warnings.length ≤ 1 := by
  unfold checkSPF
  split
  · simp
  · exact checkSPFLoop_warnings_le _

theorem checkDMARC_warnings_le (env : Env) (domain : String) :
    (checkDMARC env domain).warnings.length ≤ 1 := by
  cases hl : env.lookupTXT (dmarcQuery domain) with
  | none => simp [checkDMARC, hl]
  | some recs => simpa [checkDMARC, hl] using checkDMARCLoop_warnings_le recs

theorem checkSPF_status_notFound (env : Env) (domain : String)
    (h : ∀ recs, env.lookupTXT domain = some recs → ∀ r ∈ recs, hasPrefix r "v=spf1" = false) :
    (checkSPF env domain).status = notFound ∧ (checkSPF env domain).warnings = [] := by
  cases hl : env.lookupTXT domain with
  | none => simp [checkSPF, hl]
  | some recs => simp [checkSPF, hl, checkSPFLoop_none recs (h recs hl)]

theorem checkDMARC_status_notFound (env : Env) (domain : String)
    (h : ∀ recs, env.lookupTXT (dmarcQuery domain) = some recs →
      ∀ r ∈ recs, hasPrefix r "v=DMARC1" = false) :
    (checkDMARC env domain).status = notFound ∧ (checkDMARC env domain).warnings = [] := by
  cases hl : env.lookupTXT (dmarcQuery domain) with
  | none => simp [checkDMARC, hl]
  | some recs => simp [checkDMARC, hl, checkDMARCLoop_none recs (h recs hl)]

/-- The DKIM loop reads the resolver only at the names of its selectors. -/
theorem checkDKIMLoop_congr (env env2 : Env) (domain : String) (sels : List String)
    (h : ∀ s ∈ sels, env2.lookupTXT (dkimQuery s domain) = env.lookupTXT (dkimQuery s domain)) :
    checkDKIMLoop env2 domain sels = checkDKIMLoop env domain sels := by
  induction sels with
  | nil => rfl
  | cons s rest ih =>
    have hs := h s (List.mem_cons_self _ _)
    have hrest := ih (fun x hx => h x (List.mem_cons_of_mem _ hx))
    simp only [checkDKIMLoop, hs, hrest]

/-- C5: the result of `scanDomain` carries the input domain, the statuses of
`checkSPF`, `checkDKIM` and `checkDMARC` as each returns them on its own, and
the warnings of the three checks concatenated in that order (those of DKIM
being empty), hence at most two warnings.  Each status depends only on the
resolver answers for the names of its own check, so a failure or absence in
one check leaves the others unchanged.  With no SPF record, no matching DKIM
selector and no DMARC record, all three statuses are `Not Found` and there is
no warning. -/
theorem scanDomain_contract (env : Env) (domain : String) :
    (scanDomain env domain).result.Domain = domain ∧
    (scanDomain env domain).result.SPF = (checkSPF env domain).status ∧
    (scanDomain env domain).result.DKIM = (checkDKIM env domain).status ∧
    (scanDomain env domain).result.DMARC = (checkDMARC env domain).status ∧
    (scanDomain env domain).result.Warnings =
      (checkSPF env domain).warnings ++ (checkDKIM env domain).warnings ++
        (checkDMARC env domain).warnings ∧
    (checkDKIM env domain).warnings = [] ∧
    (scanDomain env domain).result.Warnings.length ≤ 2 ∧
    (∀ env2 : Env, env2.lookupTXT domain = env.lookupTXT domain →
      (scanDomain env2 domain).result.SPF = (scanDomain env domain).result.SPF) ∧
    (∀ env2 : Env,
      (∀ s ∈ commonDKIMSelectors, env2.lookupTXT (s ++ "._domainkey." ++ domain) =
        env.lookupTXT (s ++ "._domainkey." ++ domain)) →
      (scanDomain env2 domain).result.DKIM = (scanDomain env domain).result.DKIM) ∧
    (∀ env2 : Env, env2.lookupTXT ("_dmarc." ++ domain) = env.lookupTXT ("_dmarc." ++ domain) →
      (scanDomain env2 domain).result.DMARC = (scanDomain env domain).result.DMARC) ∧
    ((∀ recs, env.lookupTXT domain = some recs → ∀ r ∈ recs, hasPrefix r "v=spf1" = false) →
      (∀ s ∈ commonDKIMSelectors, ∀ recs,
        env.lookupTXT (s ++ "._domainkey." ++ domain) = some recs →
        ∀ r ∈ recs, hasPrefix r "v=DKIM1" = false) →
      (∀ recs, env.lookupTXT ("_dmarc." ++ domain) = some recs →
        ∀ r ∈ recs, hasPrefix r "v=DMARC1" = false) →
      (scanDomain env domain).result =
        { Domain := domain, SPF := "Not Found", DKIM := "Not Found", DMARC := "Not Found",
          Warnings := [] }) := by
  have hk : (checkDKIM env domain).warnings = [] := checkDKIMLoop_warnings env domain _
  refine ⟨rfl, rfl, rfl, rfl, rfl, hk, ?_, ?_, ?_, ?_, ?_⟩
  · have h1 := checkSPF_warnings_le env domain
    have h2 := checkDMARC_warnings_le env domain
    show ((checkSPF env domain).warnings ++ (checkDKIM env domain).warnings ++
        (checkDMARC env domain).warnings).length ≤ 2
    rw [hk]
    simp only [List.append_nil, List.length_append]
    omega
  · intro env2 h
    show (checkSPF env2 domain).status = (checkSPF env domain).status
    simp only [checkSPF, h]
  · intro env2 h
    show (checkDKIM env2 domain).status = (checkDKIM env domain).status
    rw [checkDKIM, checkDKIM, checkDKIMLoop_congr env env2 domain _ h]
  · intro env2 h
    show (checkDMARC env2 domain).status = (checkDMARC env domain).status
    have h2 : env2.lookupTXT (dmarcQuery domain) = env.lookupTXT (dmarcQuery domain) := h
    simp only [checkDMARC, h2]
  · intro hs hd hm
    obtain ⟨s1, s2⟩ := checkSPF_status_notFound env domain hs
    obtain ⟨m1, m2⟩ := checkDMARC_status_notFound env domain hm
    have d1 : (checkDKIM env domain).status = notFound := by
      rw [checkDKIM, checkDKIMLoop_none env domain _ hd]
    show RecordCheckResult.mk domain (checkSPF env domain).status (checkDKIM env domain).status
        (checkDMARC env domain).status
        ((checkSPF env domain).warnings ++ (checkDKIM env domain).warnings ++
          (checkDMARC env domain).warnings) = _
    rw [s1, s2, m1, m2, d1, hk]
    rfl

/-- C5 at concrete resolvers: one for which every lookup fails, and one that
agrees with it on the SPF name only. -/
theorem scanDomain_contract_witness :
    (scanDomain deadEnv "example.com").result =
      { Domain := "example.com", SPF := "Not Found", DKIM := "Not Found",
        DMARC := "Not Found", Warnings := [] } ∧
    (scanDomain (resolverEnv fun name =>
        if name = "_dmarc.nowhere.example" then some ["v=DMARC1; p=reject"] else none)
      "nowhere.example").result.SPF = (scanDomain deadEnv "nowhere.example").result.SPF :=
  ⟨(scanDomain_contract deadEnv "example.com").2.2.2.2.2.2.2.2.2.2
      (fun recs hl => by cases hl) (fun _ _ recs hl => by cases hl)
      (fun recs hl => by cases hl),
   (scanDomain_contract deadEnv "nowhere.example").2.2.2.2.2.2.2.1 _ (by decide)⟩

/-! ## C6: `scanDomainsFromFile` -/

theorem collectDomains_eq (domains lines : List String) :
    collectDomains domains lines =
      domains ++ (lines.map trimSpace).filter (fun d => decide (d ≠ "")) := by
  induction lines generalizing domains with
  | nil => simp [collectDomains]
  | cons line rest ih =>
    by_cases h : trimSpace line = ""
    · simp [collectDomains, h, ih]
    · simp [collectDomains, h, ih]

theorem scanLoop_eq (env : Env) (results : List RecordCheckResult) (trace : List Event)
    (domains : List String) :
    scanLoop env results trace domains =
      (results ++ domains.map (fun d => (scanDomain env d).result),
       trace ++ domains.flatMap (fun d => (scanDomain env d).trace)) := by
  induction domains generalizing results trace with
  | nil => simp [scanLoop]
  | cons d rest ih => simp [scanLoop, ih]

/-- A line trims to the empty string exactly when it consists of white space
only. -/
theorem trimSpace_eq_empty_iff (line : String) :
    trimSpace line = "" ↔ ∀ c ∈ line.data, isSpace c = true := by
  have hmk : trimSpace line = "" ↔
      (line.data.dropWhile isSpace).reverse.dropWhile isSpace = [] := by
    unfold trimSpace
    constructor
    · intro h
      have h2 := congrArg String.data h
      simpa using h2
    · intro h
      rw [h]
      rfl
  rw [hmk]
  constructor
  · intro h
    rw [List.dropWhile_eq_nil_iff] at h
    cases hd : line.data.dropWhile isSpace with
    | nil => exact List.dropWhile_eq_nil_iff.mp hd
    | cons x xs =>
      exfalso
      have hx : isSpace x = true := h x (by simp [hd])
      have hne : line.data.dropWhile isSpace ≠ [] := by simp [hd]
      have hhead := List.head_dropWhile_not isSpace line.data hne
      simp [hd, hx] at hhead
  · intro h
    have hd : line.data.dropWhile isSpace = [] := List.dropWhile_eq_nil_iff.mpr h
    simp [hd]

/-- C6: for a file that is opened and read without error, `scanDomainsFromFile`
returns, in file order, the scan of the trimmed text of every line whose
trimmed text is non-empty: nothing for blank or white-space-only lines, and a
domain that occurs on `k` lines is reported `k` times.  For the lines `a.com`,
an empty line, a line of two blanks and `b.com` the results are the scans of
`a.com` and `b.com`. -/
theorem scanDomainsFromFile_contract (env : Env) (filePath : String) (lines : List String)
    (h : env.openFile filePath = Except.ok ⟨lines, none⟩) :
    (scanDomainsFromFile env filePath).val =
      some (((lines.map trimSpace).filter (fun d => decide (d ≠ ""))).map
        (fun d => (scanDomain env d).result)) ∧
    (∃ results, (scanDomainsFromFile env filePath).val = some results ∧
      results.map RecordCheckResult.Domain =
        (lines.map trimSpace).filter (fun d => decide (d ≠ "")) ∧
      results.length = (lines.filter (fun l => decide (trimSpace l ≠ ""))).length ∧
      (∀ d, d ≠ "" →
        (results.filter (fun r => decide (r.Domain = d))).length =
          (lines.filter (fun l => decide (trimSpace l = d))).length)) ∧
    (∀ l ∈ lines, (trimSpace l = "" ↔ ∀ c ∈ l.data, isSpace c = true)) ∧
    (scanDomainsFromFile env filePath).trace =
      ((lines.map trimSpace).filter (fun d => decide (d ≠ ""))).flatMap
        (fun d => (scanDomain env d).trace) ∧
    (lines = ["a.com", "", "  ", "b.com"] →
      (scanDomainsFromFile env filePath).val =
        some [(scanDomain env "a.com").result, (scanDomain env "b.com").result]) := by
  have hval : (scanDomainsFromFile env filePath).val =
      some (((lines.map trimSpace).filter (fun d => decide (d ≠ ""))).map
        (fun d => (scanDomain env d).result)) := by
    simp [scanDomainsFromFile, h, collectDomains_eq, scanLoop_eq]
  have hdom : ∀ ds : List String,
      (ds.map (fun d => (scanDomain env d).result)).map RecordCheckResult.Domain = ds := by
    intro ds
    induction ds with
    | nil => rfl
    | cons d rest ih =>
      simp only [List.map_cons, ih]
      rfl
  refine ⟨hval, ⟨_, hval, hdom _, ?_, ?_⟩, ?_, ?_, ?_⟩
  · rw [List.length_map, List.filter_map, List.length_map]
    rfl
  · intro d hd
    have e1 : ∀ ds : List String,
        ((ds.map (fun d => (scanDomain env d).result)).filter
          (fun r => decide (r.Domain = d))).length =
        (ds.filter (fun x => decide (x = d))).length := by
      intro ds
      induction ds with
      | nil => rfl
      | cons x rest ih =>
        have hx : (scanDomain env x).result.Domain = x := rfl
        by_cases hxd : x = d
        · subst hxd
          simp only [List.map_cons, List.filter_cons, hx, decide_True, if_true,
            List.length_cons, ih]
        · simp only [List.map_cons, List.filter_cons, hx, hxd, decide_False]
          simpa using ih
    rw [e1]
    have e2 : ∀ ls : List String,
        (((ls.map trimSpace).filter (fun d => decide (d ≠ ""))).filter
          (fun x => decide (x = d))).length =
        (ls.filter (fun l => decide (trimSpace l = d))).length := by
      intro ls
      induction ls with
      | nil => rfl
      | cons l rest ih =>
        by_cases hl : trimSpace l = d
        · have hne : trimSpace l ≠ "" := by rw [hl]; exact hd
          simp [List.filter_cons, hl, hd] at ih ⊢
          exact ih
        · by_cases hl2 : trimSpace l = ""
          · have hd2 : ¬ "" = d := fun e => hd e.symm
            simp [List.filter_cons, hl2, hd2] at ih ⊢
            exact ih
          · simp [List.filter_cons, hl, hl2] at ih ⊢
            exact ih
    exact e2 lines
  · intro l _
    exact trimSpace_eq_empty_iff l
  · simp [scanDomainsFromFile, h, collectDomains_eq, scanLoop_eq]
  · intro hl
    rw [hval, hl]
    rfl

/-- C6 at the file `domains.txt` of `fileEnv`, whose lines are `a.com`, an
empty line, a line of two blanks and `b.com`. -/
theorem scanDomainsFromFile_contract_witness :
    (scanDomainsFromFile fileEnv "domains.txt").val =
      some [(scanDomain fileEnv "a.com").result, (scanDomain fileEnv "b.com").result] :=
  (scanDomainsFromFile_contract fileEnv "domains.txt" ["a.com", "", "  ", "b.com"]
    (by rfl)).2.2.2.2 rfl

/-! ## C7: number of DNS lookups -/

theorem lookupCount_append (t1 t2 : List Event) :
    lookupCount (t1 ++ t2) = lookupCount t1 + lookupCount t2 := by
  simp [lookupCount, List.filter_append]

theorem lookupCount_lookups (names : List String) :
    lookupCount (names.map Event.lookup) = names.length := by
  induction names with
  | nil => rfl
  | cons n rest ih =>
    simp only [lookupCount, List.map_cons, List.filter_cons, Event.isLookup, if_true,
      List.length_cons] at ih ⊢
    omega

theorem checkDKIM_lookupCount_le (env : Env) (domain : String) (sels : List String) :
    lookupCount (checkDKIMLoop env domain sels).trace ≤ sels.length := by
  obtain ⟨n, hn, ht⟩ := checkDKIMLoop_lookups env domain sels
  have e : (sels.take n).map (fun s => Event.lookup (dkimQuery s domain)) =
      ((sels.take n).map (fun s => dkimQuery s domain)).map Event.lookup := by
    rw [List.map_map]
    rfl
  rw [ht, e, lookupCount_lookups]
  simp only [List.length_map, List.length_take]
  omega

theorem checkSPF_trace (env : Env) (domain : String) :
    (checkSPF env domain).trace = [Event.lookup domain] := by
  unfold checkSPF
  split <;> rfl

theorem checkDMARC_trace (env : Env) (domain : String) :
    (checkDMARC env domain).trace = [Event.lookup ("_dmarc." ++ domain)] := by
  cases hl : env.lookupTXT ("_dmarc." ++ domain) with
  | none => simp [checkDMARC, hl, dmarcQuery]
  | some recs => simp [checkDMARC, hl, dmarcQuery]

theorem scanDomain_lookupCount (env : Env) (domain : String) :
    lookupCount (scanDomain env domain).trace =
      1 + lookupCount (checkDKIM env domain).trace + 1 := by
  show lookupCount ([Event.stdout ("Scanning domain: " ++ domain ++ "\n")] ++
      (checkSPF env domain).trace ++ (checkDKIM env domain).trace ++
      (checkDMARC env domain).trace ++ [Event.stdout _]) = _
  rw [checkSPF_trace, checkDMARC_trace]
  simp only [lookupCount_append]
  simp [lookupCount, Event.isLookup]

/-- C7 as stated fails: when every lookup fails, `checkDKIM` makes 28 lookups
(one for each of the 28 selectors), more than 26, and the scan of one domain
makes 30, more than 28. -/
theorem dkim_lookups_exceed_26 :
    lookupCount (checkDKIM deadEnv "example.com").trace = 28 ∧
    ¬ lookupCount (checkDKIM deadEnv "example.com").trace ≤ 26 ∧
    lookupCount (scanDomain deadEnv "example.com").trace = 30 ∧
    ¬ lookupCount (scanDomain deadEnv "example.com").trace ≤ 1 * 28 := by
  decide

/-- C7 amended: one call of `scanDomain` makes exactly one SPF lookup, at most
28 DKIM lookups (the number of selectors) and exactly one DMARC lookup, hence
at most 30 lookups; the DKIM bound is reached when no selector matches; and
scanning `N` domains in sequence makes at most `N * 30` lookups. -/
theorem scanDomain_lookup_bound (env : Env) (domain : String) :
    commonDKIMSelectors.length = 28 ∧
    lookupCount (checkSPF env domain).trace = 1 ∧
    lookupCount (checkDKIM env domain).trace ≤ 28 ∧
    lookupCount (checkDMARC env domain).trace = 1 ∧
    lookupCount (scanDomain env domain).trace =
      lookupCount (checkSPF env domain).trace + lookupCount (checkDKIM env domain).trace +
        lookupCount (checkDMARC env domain).trace ∧
    lookupCount (scanDomain env domain).trace ≤ 30 ∧
    ((∀ s ∈ commonDKIMSelectors, ∀ recs,
        env.lookupTXT (s ++ "._domainkey." ++ domain) = some recs →
        ∀ r ∈ recs, hasPrefix r "v=DKIM1" = false) →
      lookupCount (checkDKIM env domain).trace = 28 ∧
      lookupCount (scanDomain env domain).trace = 30) ∧
    (∀ domains : List String,
      lookupCount (scanLoop env [] [] domains).2 ≤ domains.length * 30) := by
  have hlen : commonDKIMSelectors.length = 28 := by decide
  have hspf : lookupCount (checkSPF env domain).trace = 1 := by
    rw [checkSPF_trace]; rfl
  have hdmarc : lookupCount (checkDMARC env domain).trace = 1 := by
    rw [checkDMARC_trace]; rfl
  have hdkim : lookupCount (checkDKIM env domain).trace ≤ 28 := by
    have h := checkDKIM_lookupCount_le env domain commonDKIMSelectors
    rw [hlen] at h
    exact h
  have hscan := scanDomain_lookupCount env domain
  have hall : ∀ d : String, lookupCount (scanDomain env d).trace ≤ 30 := by
    intro d
    have h1 := scanDomain_lookupCount env d
    have h2 := checkDKIM_lookupCount_le env d commonDKIMSelectors
    rw [hlen] at h2
    have h3 : lookupCount (checkDKIM env d).trace ≤ 28 := h2
    omega
  refine ⟨hlen, hspf, hdkim, hdmarc, by omega, hall domain, ?_, ?_⟩
  · intro h
    have hk : lookupCount (checkDKIM env domain).trace = 28 := by
      rw [checkDKIM, checkDKIMLoop_none env domain _ h]
      have e : commonDKIMSelectors.map (fun s => Event.lookup (dkimQuery s domain)) =
          (commonDKIMSelectors.map (fun s => dkimQuery s domain)).map Event.lookup := by
        rw [List.map_map]
        rfl
      show lookupCount (commonDKIMSelectors.map (fun s => Event.lookup (dkimQuery s domain))) = 28
      rw [e, lookupCount_lookups, List.length_map, hlen]
    exact ⟨hk, by omega⟩
  · intro domains
    rw [scanLoop_eq]
    simp only [List.nil_append]
    induction domains with
    | nil => simp [lookupCount]
    | cons d rest ih =>
      have hd := hall d
      simp only [List.flatMap_cons, lookupCount_append, List.length_cons]
      omega

/-- C7 amended, at a resolver for which every lookup fails: the bound of 28
DKIM lookups and 30 lookups in all is reached. -/
theorem scanDomain_lookup_bound_witness :
    lookupCount (checkDKIM deadEnv "example.com").trace = 28 ∧
    lookupCount (scanDomain deadEnv "example.com").trace = 30 :=
  (scanDomain_lookup_bound deadEnv "example.com").2.2.2.2.2.2.1
    (fun _ _ recs hl => by cases hl)

/-! ## C4 and C8: the command line -/

/-- With `-f` given, the list handed on by `main` is the list of the file
alone, whatever `-d` is. -/
theorem mainResults_file_replaces (env : Env) (flags : Flags) (hf : flags.fileFlag ≠ "") :
    (mainResults env flags).val = (scanDomainsFromFile env flags.fileFlag).val := by
  simp [mainResults, hf]

/-- C4 fails on the code: with `-d a.com -f domains.txt`, the file holding the
one line `b.com`, the domain `a.com` is scanned (its lookup is in the trace)
but the list handed to `printSummary` and `saveResultsToCSV` holds only the
result for `b.com`, and the summary has no entry for `a.com`: the assignment
in the `-f` block replaces the list built by the `-d` block. -/
theorem main_drops_single_domain_result :
    (mainResults
        { lookupTXT := fun _ => none
          openFile := fun _ => Except.ok ⟨["b.com"], none⟩
          createErr := fun _ => none }
        ⟨"a.com", "domains.txt", ""⟩).val =
      some [{ Domain := "b.com", SPF := "Not Found", DKIM := "Not Found",
              DMARC := "Not Found", Warnings := [] }] ∧
    Event.lookup "a.com" ∈
      (mainResults
        { lookupTXT := fun _ => none
          openFile := fun _ => Except.ok ⟨["b.com"], none⟩
          createErr := fun _ => none }
        ⟨"a.com", "domains.txt", ""⟩).trace ∧
    Event.stdout "\nDomain: a.com\n" ∉
      main
        { lookupTXT := fun _ => none
          openFile := fun _ => Except.ok ⟨["b.com"], none⟩
          createErr := fun _ => none }
        ⟨"a.com", "domains.txt", ""⟩ := by
  decide

/-- C8 as stated fails: with `-d a.com -f missing.txt`, where the file cannot
be opened, the domain `a.com` is scanned in full (30 lookups and its console
output) before the fatal termination. -/
theorem file_error_after_single_scan :
    main deadEnv ⟨"a.com", "missing.txt", ""⟩ =
      (scanDomain deadEnv "a.com").trace ++
        [Event.fatal "Failed to open file: no such file or directory"] ∧
    lookupCount (main deadEnv ⟨"a.com", "missing.txt", ""⟩) = 30 ∧
    (main deadEnv ⟨"a.com", "missing.txt", ""⟩).head? =
      some (Event.stdout "Scanning domain: a.com\n") := by
  decide

/-- C8 amended: when the file given with `-f` cannot be opened, or its reading
fails, the run ends with the fatal event before any domain of the file is
scanned and before any summary or CSV output: the only events before the fatal
one are those of the scan of the `-d` domain, when `-d` is given; without `-d`
the fatal event is the only event (no lookup, no output), whatever `-o` is. -/
theorem main_file_error (env : Env) (flags : Flags) (hf : flags.fileFlag ≠ "") :
    (∀ err, env.openFile flags.fileFlag = Except.error err →
      main env flags =
        (if flags.domainFlag ≠ "" then (scanDomain env flags.domainFlag).trace else []) ++
          [Event.fatal ("Failed to open file: " ++ err)] ∧
      (flags.domainFlag = "" →
        main env flags = [Event.fatal ("Failed to open file: " ++ err)])) ∧
    (∀ lines err, env.openFile flags.fileFlag = Except.ok ⟨lines, some err⟩ →
      main env flags =
        (if flags.domainFlag ≠ "" then (scanDomain env flags.domainFlag).trace else []) ++
          [Event.fatal ("Error reading file: " ++ err)] ∧
      (flags.domainFlag = "" →
        main env flags = [Event.fatal ("Error reading file: " ++ err)])) := by
  have key : ∀ msg, scanDomainsFromFile env flags.fileFlag = ⟨none, [Event.fatal msg]⟩ →
      main env flags =
        (if flags.domainFlag ≠ "" then (scanDomain env flags.domainFlag).trace else []) ++
          [Event.fatal msg] ∧
      (flags.domainFlag = "" → main env flags = [Event.fatal msg]) := by
    intro msg hm
    refine ⟨?_, ?_⟩
    · by_cases hd : flags.domainFlag = ""
      · simp [main, mainResults, hf, hd, hm]
      · simp [main, mainResults, hf, hd, hm]
    · intro hd
      simp [main, mainResults, hf, hd, hm]
  refine ⟨?_, ?_⟩
  · intro err he
    exact key _ (by simp [scanDomainsFromFile, he])
  · intro lines err he
    exact key _ (by simp [scanDomainsFromFile, he])

/-- C8 amended, at concrete runs without `-d` and with `-o`: a file that
cannot be opened, and a file whose reading fails. -/
theorem main_file_error_witness :
    main fileEnv ⟨"", "missing.txt", "out.csv"⟩ =
      [Event.fatal "Failed to open file: no such file or directory"] ∧
    main fileEnv ⟨"", "broken.txt", "out.csv"⟩ =
      [Event.fatal "Error reading file: input/output error"] :=
  ⟨((main_file_error fileEnv ⟨"", "missing.txt", "out.csv"⟩ (by decide)).1
      "no such file or directory" (by rfl)).2 (by rfl),
   ((main_file_error fileEnv ⟨"", "broken.txt", "out.csv"⟩ (by decide)).2
      ["a.com"] "input/output error" (by rfl)).2 (by rfl)⟩

/-! ## C10: the summary's tagging of warnings, and the sentinel -/

theorem summaryWarnings_eq (tag : String) (ws : List String) :
    summaryWarnings tag ws =
      (ws.filter (fun w => contains w tag)).map (fun w => Event.stdout ("    - " ++ w ++ "\n")) := by
  induction ws with
  | nil => rfl
  | cons w rest ih =>
    by_cases h : contains w tag = true
    · simp [summaryWarnings, h, ih]
    · simp [summaryWarnings, h, ih]

/-- What the SPF loop returns: nothing found, or a record beginning with
`v=spf1` with no warning or the SPF warning. -/
theorem checkSPFLoop_cases (recs : List String) :
    (checkSPFLoop recs = (notFound, []) ∧ ∀ r ∈ recs, hasPrefix r "v=spf1" = false) ∨
    (∃ txt ∈ recs, hasPrefix txt "v=spf1" = true ∧ (checkSPFLoop recs).1 = txt ∧
      ((checkSPFLoop recs).2 = [] ∨ (checkSPFLoop recs).2 = [spfWarning])) := by
  induction recs with
  | nil => exact Or.inl ⟨rfl, by simp⟩
  | cons r rest ih =>
    by_cases hr : hasPrefix r "v=spf1" = true
    · refine Or.inr ⟨r, List.mem_cons_self _ _, hr, by simp [checkSPFLoop, hr], ?_⟩
      by_cases hw : (!contains r "~all" && !contains r "-all") = true
      · exact Or.inr (by simp only [checkSPFLoop, hr, if_true, hw]; rfl)
      · exact Or.inl (by simp only [checkSPFLoop, hr, if_true, hw]; rfl)
    · have hr2 : hasPrefix r "v=spf1" = false := by simpa using hr
      rcases ih with ⟨h1, h2⟩ | ⟨txt, hm, h1, h2, h3⟩
      · refine Or.inl ⟨by simp [checkSPFLoop, hr2, h1], ?_⟩
        intro x hx
        rcases List.mem_cons.mp hx with rfl | hx
        · exact hr2
        · exact h2 x hx
      · refine Or.inr ⟨txt, List.mem_cons_of_mem _ hm, h1, ?_, ?_⟩
        · simpa [checkSPFLoop, hr2] using h2
        · simpa [checkSPFLoop, hr2] using h3

/-- What the DMARC loop returns: nothing found, or a record beginning with
`v=DMARC1` with no warning or one of the two DMARC warnings. -/
theorem checkDMARCLoop_cases (recs : List String) :
    (checkDMARCLoop recs = (notFound, []) ∧ ∀ r ∈ recs, hasPrefix r "v=DMARC1" = false) ∨
    (∃ txt ∈ recs, hasPrefix txt "v=DMARC1" = true ∧ (checkDMARCLoop recs).1 = txt ∧
      ((checkDMARCLoop recs).2 = [] ∨ (checkDMARCLoop recs).2 = [dmarcNoneWarning] ∨
        (checkDMARCLoop recs).2 = [dmarcWeakWarning])) := by
  induction recs with
  | nil => exact Or.inl ⟨rfl, by simp⟩
  | cons r rest ih =>
    by_cases hr : hasPrefix r "v=DMARC1" = true
    · refine Or.inr ⟨r, List.mem_cons_self _ _, hr, by simp [checkDMARCLoop, hr], ?_⟩
      by_cases hn : contains r "p=none" = true
      · exact Or.inr (Or.inl (by simp only [checkDMARCLoop, hr, if_true, hn]; rfl))
      · by_cases hw : (!contains r "p=quarantine" && !contains r "p=reject") = true
        · exact Or.inr (Or.inr (by
            simp only [checkDMARCLoop, hr, if_true, hn, hw, if_false]; rfl))
        · exact Or.inl (by simp only [checkDMARCLoop, hr, if_true, hn, hw, if_false]; rfl)
    · have hr2 : hasPrefix r "v=DMARC1" = false := by simpa using hr
      rcases ih with ⟨h1, h2⟩ | ⟨txt, hm, h1, h2, h3⟩
      · refine Or.inl ⟨by simp [checkDMARCLoop, hr2, h1], ?_⟩
        intro x hx
        rcases List.mem_cons.mp hx with rfl | hx
        · exact hr2
        · exact h2 x hx
      · refine Or.inr ⟨txt, List.mem_cons_of_mem _ hm, h1, ?_, ?_⟩
        · simpa [checkDMARCLoop, hr2] using h2
        · simpa [checkDMARCLoop, hr2] using h3

theorem dkimRecordLoop_some (recs : List String) (txt : String)
    (h : dkimRecordLoop recs = some txt) : txt ∈ recs ∧ hasPrefix txt "v=DKIM1" = true := by
  induction recs with
  | nil => simp [dkimRecordLoop] at h
  | cons r rest ih =>
    by_cases hr : hasPrefix r "v=DKIM1" = true
    · simp only [dkimRecordLoop, hr, if_true, Option.some.injEq] at h
      subst h
      exact ⟨List.mem_cons_self _ _, hr⟩
    · have hr2 : hasPrefix r "v=DKIM1" = false := by simpa using hr
      simp only [dkimRecordLoop, hr2] at h
      obtain ⟨h1, h2⟩ := ih (by simpa using h)
      exact ⟨List.mem_cons_of_mem _ h1, h2⟩

/-- What the DKIM loop returns: `Not Found` when no selector has a matching
record, or `Found (selector): txt` for a selector with the matching record
`txt`. -/
theorem checkDKIMLoop_cases (env : Env) (domain : String) (sels : List String) :
    ((checkDKIMLoop env domain sels).status = notFound ∧
      ∀ s ∈ sels, ∀ recs, env.lookupTXT (dkimQuery s domain) = some recs →
        ∀ r ∈ recs, hasPrefix r "v=DKIM1" = false) ∨
    (∃ s ∈ sels, ∃ recs txt, env.lookupTXT (dkimQuery s domain) = some recs ∧ txt ∈ recs ∧
      hasPrefix txt "v=DKIM1" = true ∧
      (checkDKIMLoop env domain sels).status = "Found (" ++ s ++ "): " ++ txt) := by
  induction sels with
  | nil => exact Or.inl ⟨rfl, by simp⟩
  | cons s rest ih =>
    cases hb : (env.lookupTXT (dkimQuery s domain)).bind dkimRecordLoop with
    | some txt =>
      right
      cases hl : env.lookupTXT (dkimQuery s domain) with
      | none => simp [hl] at hb
      | some recs =>
        rw [hl] at hb
        obtain ⟨h1, h2⟩ := dkimRecordLoop_some recs txt hb
        refine ⟨s, List.mem_cons_self _ _, recs, txt, hl, h1, h2, ?_⟩
        simp [checkDKIMLoop, hl, show dkimRecordLoop recs = some txt from hb]
    | none =>
      have hskip : ∀ recs, env.lookupTXT (dkimQuery s domain) = some recs →
          ∀ r ∈ recs, hasPrefix r "v=DKIM1" = false := by
        intro recs hl r hr
        rw [hl] at hb
        by_contra hc
        have hc2 : hasPrefix r "v=DKIM1" = true := by simpa using hc
        obtain ⟨before, after, rfl⟩ := List.append_of_mem hr
        -- some record of the answer matches, so the inner loop finds one
        have : ∃ t, dkimRecordLoop (before ++ r :: after) = some t := by
          clear hb hl hr
          induction before with
          | nil => exact ⟨r, by simp [dkimRecordLoop, hc2]⟩
          | cons b bs ihb =>
            by_cases hbp : hasPrefix b "v=DKIM1" = true
            · exact ⟨b, by simp [dkimRecordLoop, hbp]⟩
            · obtain ⟨t, ht⟩ := ihb
              exact ⟨t, by simpa [dkimRecordLoop, hbp] using ht⟩
        obtain ⟨t, ht⟩ := this
        have hb2 : dkimRecordLoop (before ++ r :: after) = none := hb
        rw [ht] at hb2
        cases hb2
      rcases ih with ⟨h1, h2⟩ | ⟨s2, hm, recs, txt, hl, h1, h2, h3⟩
      · refine Or.inl ⟨by simp [checkDKIMLoop, hb, h1], ?_⟩
        intro x hx
        rcases List.mem_cons.mp hx with rfl | hx
        · exact hskip
        · exact h2 x hx
      · exact Or.inr ⟨s2, List.mem_cons_of_mem _ hm, recs, txt, hl, h1, h2,
          by simp [checkDKIMLoop, hb, h3]⟩

theorem ne_notFound_of_hasPrefix (txt pre : String) (h : hasPrefix txt pre = true)
    (hp : hasPrefix "Not Found" pre = false) : txt ≠ "Not Found" := by
  intro e
  rw [e, hp] at h
  cases h

theorem found_hasPrefix (selector txt : String) :
    hasPrefix ("Found (" ++ selector ++ "): " ++ txt) "Found (" = true := by
  rw [String.append_assoc, String.append_assoc]
  exact hasPrefix_append _ _

theorem checkSPF_cases (env : Env) (domain : String) :
    ((checkSPF env domain).status = notFound ∧ (checkSPF env domain).warnings = [] ∧
      ∀ recs, env.lookupTXT domain = some recs → ∀ r ∈ recs, hasPrefix r "v=spf1" = false) ∨
    (hasPrefix (checkSPF env domain).status "v=spf1" = true ∧
      ((checkSPF env domain).warnings = [] ∨ (checkSPF env domain).warnings = [spfWarning])) := by
  cases hl : env.lookupTXT domain with
  | none => exact Or.inl ⟨by simp [checkSPF, hl], by simp [checkSPF, hl], by simp⟩
  | some recs =>
    have e1 : (checkSPF env domain).status = (checkSPFLoop recs).1 := by simp [checkSPF, hl]
    have e2 : (checkSPF env domain).warnings = (checkSPFLoop recs).2 := by simp [checkSPF, hl]
    rcases checkSPFLoop_cases recs with ⟨h1, h2⟩ | ⟨txt, _, h1, h2, h3⟩
    · refine Or.inl ⟨by rw [e1, h1], by rw [e2, h1], ?_⟩
      intro recs2 he
      cases he
      exact h2
    · exact Or.inr ⟨by rw [e1, h2]; exact h1, by rw [e2]; exact h3⟩

theorem checkDMARC_cases (env : Env) (domain : String) :
    ((checkDMARC env domain).status = notFound ∧ (checkDMARC env domain).warnings = [] ∧
      ∀ recs, env.lookupTXT ("_dmarc." ++ domain) = some recs →
        ∀ r ∈ recs, hasPrefix r "v=DMARC1" = false) ∨
    (hasPrefix (checkDMARC env domain).status "v=DMARC1" = true ∧
      ((checkDMARC env domain).warnings = [] ∨
        (checkDMARC env domain).warnings = [dmarcNoneWarning] ∨
        (checkDMARC env domain).warnings = [dmarcWeakWarning])) := by
  cases hl : env.lookupTXT ("_dmarc." ++ domain) with
  | none =>
    exact Or.inl ⟨by simp [checkDMARC, dmarcQuery, hl], by simp [checkDMARC, dmarcQuery, hl],
      by simp⟩
  | some recs =>
    have e1 : (checkDMARC env domain).status = (checkDMARCLoop recs).1 := by
      simp [checkDMARC, dmarcQuery, hl]
    have e2 : (checkDMARC env domain).warnings = (checkDMARCLoop recs).2 := by
      simp [checkDMARC, dmarcQuery, hl]
    rcases checkDMARCLoop_cases recs with ⟨h1, h2⟩ | ⟨txt, _, h1, h2, h3⟩
    · refine Or.inl ⟨by rw [e1, h1], by rw [e2, h1], ?_⟩
      intro recs2 he
      cases he
      exact h2
    · exact Or.inr ⟨by rw [e1, h2]; exact h1, by rw [e2]; exact h3⟩

/-- C10: for the result of `scanDomain`, the warnings that contain `SPF` are
exactly the warnings of `checkSPF` and those that contain `DMARC` exactly the
warnings of `checkDMARC`; no warning contains both words and every warning
contains one of them; a check that produced a warning found its record, so
the summary block of a found SPF (DMARC) record lists exactly the warnings of
`checkSPF` (`checkDMARC`).  A status is `Not Found` exactly when its check
found no record: a found SPF status begins with `v=spf1`, a found DMARC status
with `v=DMARC1`, and a found DKIM status with `Found (`. -/
theorem summary_tagging_exact (env : Env) (domain : String) :
    ((scanDomain env domain).result.Warnings.filter (fun w => contains w "SPF") =
      (checkSPF env domain).warnings) ∧
    ((scanDomain env domain).result.Warnings.filter (fun w => contains w "DMARC") =
      (checkDMARC env domain).warnings) ∧
    (∀ w ∈ (scanDomain env domain).result.Warnings,
      (contains w "SPF" = true ∧ contains w "DMARC" = false) ∨
      (contains w "SPF" = false ∧ contains w "DMARC" = true)) ∧
    ((checkSPF env domain).warnings ≠ [] → (checkSPF env domain).status ≠ "Not Found") ∧
    ((checkDMARC env domain).warnings ≠ [] → (checkDMARC env domain).status ≠ "Not Found") ∧
    ((checkSPF env domain).status ≠ "Not Found" →
      summarySPF (scanDomain env domain).result =
        Event.stdout "[✓] SPF Record Found\n" ::
          (if (scanDomain env domain).result.Warnings = [] then []
           else Event.stdout "    Warnings:\n" ::
            (checkSPF env domain).warnings.map
              (fun w => Event.stdout ("    - " ++ w ++ "\n")))) ∧
    ((checkDMARC env domain).status ≠ "Not Found" →
      summaryDMARC (scanDomain env domain).result =
        Event.stdout "[✓] DMARC Record Found\n" ::
          (if (scanDomain env domain).result.Warnings = [] then []
           else Event.stdout "    Warnings:\n" ::
            (checkDMARC env domain).warnings.map
              (fun w => Event.stdout ("    - " ++ w ++ "\n")))) ∧
    ((checkSPF env domain).status = "Not Found" ↔
      ∀ recs, env.lookupTXT domain = some recs → ∀ r ∈ recs, hasPrefix r "v=spf1" = false) ∧
    ((checkDKIM env domain).status = "Not Found" ↔
      ∀ s ∈ commonDKIMSelectors, ∀ recs,
        env.lookupTXT (s ++ "._domainkey." ++ domain) = some recs →
        ∀ r ∈ recs, hasPrefix r "v=DKIM1" = false) ∧
    ((checkDMARC env domain).status = "Not Found" ↔
      ∀ recs, env.lookupTXT ("_dmarc." ++ domain) = some recs →
        ∀ r ∈ recs, hasPrefix r "v=DMARC1" = false) ∧
    ((checkSPF env domain).status ≠ "Not Found" →
      hasPrefix (checkSPF env domain).status "v=spf1" = true) ∧
    ((checkDKIM env domain).status ≠ "Not Found" →
      hasPrefix (checkDKIM env domain).status "Found (" = true) ∧
    ((checkDMARC env domain).status ≠ "Not Found" →
      hasPrefix (checkDMARC env domain).status "v=DMARC1" = true) := by
  have hk : (checkDKIM env domain).warnings = [] := checkDKIMLoop_warnings env domain _
  have hW : (scanDomain env domain).result.Warnings =
      (checkSPF env domain).warnings ++ (checkDMARC env domain).warnings := by
    show (checkSPF env domain).warnings ++ (checkDKIM env domain).warnings ++
      (checkDMARC env domain).warnings = _
    rw [hk, List.append_nil]
  have hSPFres : (scanDomain env domain).result.SPF = (checkSPF env domain).status := rfl
  have hDMARCres : (scanDomain env domain).result.DMARC = (checkDMARC env domain).status := rfl
  have a1 : contains spfWarning "SPF" = true := by decide
  have a2 : contains spfWarning "DMARC" = false := by decide
  have b1 : contains dmarcNoneWarning "SPF" = false := by decide
  have b2 : contains dmarcNoneWarning "DMARC" = true := by decide
  have c1 : contains dmarcWeakWarning "SPF" = false := by decide
  have c2 : contains dmarcWeakWarning "DMARC" = true := by decide
  have hS := checkSPF_cases env domain
  have hM := checkDMARC_cases env domain
  have hD := checkDKIMLoop_cases env domain commonDKIMSelectors
  -- the warnings of each check
  have hSw : (checkSPF env domain).warnings = [] ∨
      (checkSPF env domain).warnings = [spfWarning] := by
    rcases hS with ⟨_, h, _⟩ | ⟨_, h⟩
    · exact Or.inl h
    · exact h
  have hMw : (checkDMARC env domain).warnings = [] ∨
      (checkDMARC env domain).warnings = [dmarcNoneWarning] ∨
      (checkDMARC env domain).warnings = [dmarcWeakWarning] := by
    rcases hM with ⟨_, h, _⟩ | ⟨_, h⟩
    · exact Or.inl h
    · exact h
  have f1 : (scanDomain env domain).result.Warnings.filter (fun w => contains w "SPF") =
      (checkSPF env domain).warnings := by
    rw [hW]
    rcases hSw with h | h <;> rcases hMw with g | g | g <;>
      simp [h, g, List.filter_cons, a1, b1, c1]
  have f2 : (scanDomain env domain).result.Warnings.filter (fun w => contains w "DMARC") =
      (checkDMARC env domain).warnings := by
    rw [hW]
    rcases hSw with h | h <;> rcases hMw with g | g | g <;>
      simp [h, g, List.filter_cons, a2, b2, c2]
  have f3 : ∀ w ∈ (scanDomain env domain).result.Warnings,
      (contains w "SPF" = true ∧ contains w "DMARC" = false) ∨
      (contains w "SPF" = false ∧ contains w "DMARC" = true) := by
    intro w hw
    rw [hW, List.mem_append] at hw
    rcases hw with hw | hw
    · rcases hSw with h | h
      · rw [h] at hw; cases hw
      · rw [h, List.mem_singleton] at hw
        subst hw
        exact Or.inl ⟨a1, a2⟩
    · rcases hMw with g | g | g
      · rw [g] at hw; cases hw
      · rw [g, List.mem_singleton] at hw
        subst hw
        exact Or.inr ⟨b1, b2⟩
      · rw [g, List.mem_singleton] at hw
        subst hw
        exact Or.inr ⟨c1, c2⟩
  have pS : (checkSPF env domain).status ≠ "Not Found" →
      hasPrefix (checkSPF env domain).status "v=spf1" = true := by
    intro hne
    rcases hS with ⟨h, _, _⟩ | ⟨h, _⟩
    · exact absurd h hne
    · exact h
  have pM : (checkDMARC env domain).status ≠ "Not Found" →
      hasPrefix (checkDMARC env domain).status "v=DMARC1" = true := by
    intro hne
    rcases hM with ⟨h, _, _⟩ | ⟨h, _⟩
    · exact absurd h hne
    · exact h
  have pD : (checkDKIM env domain).status ≠ "Not Found" →
      hasPrefix (checkDKIM env domain).status "Found (" = true := by
    intro hne
    rcases hD with ⟨h, _⟩ | ⟨s, _, recs, txt, _, _, _, h⟩
    · exact absurd h hne
    · rw [checkDKIM, h]
      exact found_hasPrefix s txt
  refine ⟨f1, f2, f3, ?_, ?_, ?_, ?_, ?_, ?_, ?_, pS, pD, pM⟩
  · intro hne
    rcases hS with ⟨_, h, _⟩ | ⟨h, _⟩
    · exact absurd h hne
    · exact ne_notFound_of_hasPrefix _ _ h (by decide)
  · intro hne
    rcases hM with ⟨_, h, _⟩ | ⟨h, _⟩
    · exact absurd h hne
    · exact ne_notFound_of_hasPrefix _ _ h (by decide)
  · intro hne
    have hne2 : (scanDomain env domain).result.SPF ≠ "Not Found" := hne
    rw [summarySPF, if_pos hne2, summaryWarnings_eq, f1]
    by_cases hw : (scanDomain env domain).result.Warnings = []
    · simp [hw]
    · have hlen : (scanDomain env domain).result.Warnings.length > 0 :=
        List.length_pos.mpr hw
      simp [hw, hlen]
  · intro hne
    have hne2 : (scanDomain env domain).result.DMARC ≠ "Not Found" := hne
    rw [summaryDMARC, if_pos hne2, summaryWarnings_eq, f2]
    by_cases hw : (scanDomain env domain).result.Warnings = []
    · simp [hw]
    · have hlen : (scanDomain env domain).result.Warnings.length > 0 :=
        List.length_pos.mpr hw
      simp [hw, hlen]
  · constructor
    · intro hnf
      rcases hS with ⟨_, _, h⟩ | ⟨h, _⟩
      · exact h
      · exact absurd hnf (ne_notFound_of_hasPrefix _ _ h (by decide))
    · intro h
      exact (checkSPF_status_notFound env domain h).1
  · constructor
    · intro hnf
      rcases hD with ⟨_, h⟩ | ⟨s, _, recs, txt, _, _, _, h⟩
      · exact h
      · have hp : hasPrefix (checkDKIM env domain).status "Found (" = true := by
          rw [checkDKIM, h]
          exact found_hasPrefix s txt
        exact absurd hnf (ne_notFound_of_hasPrefix _ _ hp (by decide))
    · intro h
      rw [checkDKIM, checkDKIMLoop_none env domain _ h]
      rfl
  · constructor
    · intro hnf
      rcases hM with ⟨_, _, h⟩ | ⟨h, _⟩
      · exact h
      · exact absurd hnf (ne_notFound_of_hasPrefix _ _ h (by decide))
    · intro h
      exact (checkDMARC_status_notFound env domain h).1

/-- C10 at the sample resolver: SPF and DMARC are found with one warning each,
and the two summary blocks list one warning each. -/
theorem summary_tagging_exact_witness :
    summarySPF (scanDomain sampleEnv "example.com").result =
      [Event.stdout "[✓] SPF Record Found\n", Event.stdout "    Warnings:\n",
       Event.stdout "    - SPF record does not end with '~all' or '-all'. This may allow unauthorized senders.\n"] ∧
    summaryDMARC (scanDomain sampleEnv "example.com").result =
      [Event.stdout "[✓] DMARC Record Found\n", Event.stdout "    Warnings:\n",
       Event.stdout "    - DMARC policy is set to 'none'. This means no action will be taken on failed emails.\n"] :=
  ⟨((summary_tagging_exact sampleEnv "example.com").2.2.2.2.2.1 (by decide)).trans (by decide),
   ((summary_tagging_exact sampleEnv "example.com").2.2.2.2.2.2.1 (by decide)).trans
     (by decide)⟩

/-! ## C9: the CSV file -/

theorem csvStep_comma (q : CsvReader) (h : q.atFieldEnd) : csvStep q ',' = q.endField := by
  rcases h with h | h | h | h <;> simp [csvStep, h]

theorem csvStep_newline (q : CsvReader) (h : q.atFieldEnd) :
    csvStep q '\n' = q.endRecord CsvState.recordStart := by
  rcases h with h | h | h | h <;> simp [csvStep, h]

theorem csv_unquoted_run (cs : List Char) (p : CsvReader) (hs : p.state = CsvState.unquoted)
    (hc : ∀ c ∈ cs, csvSpecial c = false) :
    cs.foldl csvStep p = { p with field := p.field ++ cs } := by
  induction cs generalizing p with
  | nil => simp
  | cons c rest ih =>
    have h1 : csvSpecial c = false := hc c (List.mem_cons_self _ _)
    simp only [csvSpecial, Bool.or_eq_false_iff, decide_eq_false_iff_not] at h1
    obtain ⟨⟨⟨hn, hr⟩, hq⟩, hcm⟩ := h1
    have hstep : csvStep p c = { p with field := p.field ++ [c] } := by
      simp [csvStep, hs, hn, hr, hq, hcm]
    have h2 := ih { p with field := p.field ++ [c] } hs
      (fun x hx => hc x (List.mem_cons_of_mem _ hx))
    rw [List.foldl_cons, hstep, h2]
    simp

theorem csv_quoted_run (cs : List Char) (p : CsvReader) (hs : p.state = CsvState.quoted) :
    (csvQuoteLoop cs).foldl csvStep p = { p with field := p.field ++ cs } := by
  induction cs generalizing p with
  | nil => simp [csvQuoteLoop]
  | cons c rest ih =>
    by_cases hq : c = '"'
    · subst hq
      have h1 : csvStep p '"' = { p with state := CsvState.quoteSeen } := by
        simp [csvStep, hs]
      have h2 : csvStep { p with state := CsvState.quoteSeen } '"' =
          { p with state := CsvState.quoted, field := p.field ++ ['"'] } := by
        simp [csvStep]
      simp only [csvQuoteLoop, if_true, List.foldl_cons, h1, h2]
      rw [ih _ rfl]
      simp [hs]
    · have h1 : csvStep p c = { p with field := p.field ++ [c] } := by
        simp [csvStep, hs, hq]
      have h2 := ih { p with field := p.field ++ [c] } hs
      simp only [csvQuoteLoop, hq, if_false, List.foldl_cons, h1]
      rw [h2]
      simp

theorem fieldNeedsQuotes_false (f : String) (h : fieldNeedsQuotes f = false) :
    ∀ c ∈ f.data, csvSpecial c = false := by
  intro c hc
  by_cases he : f = ""
  · subst he
    cases hc
  · by_cases hd : f = "\\."
    · simp [fieldNeedsQuotes, he, hd] at h
    · by_cases ha : f.data.any (fun c => c = '\n' || c = '\r' || c = '"' || c = ',') = true
      · simp [fieldNeedsQuotes, he, hd, ha] at h
      · have ha2 : f.data.any (fun c => c = '\n' || c = '\r' || c = '"' || c = ',') = false := by
          simpa using ha
        rw [List.any_eq_false] at ha2
        have := ha2 c hc
        simpa [csvSpecial] using this

/-- Reading what the writer emits for one field, from the start of a field,
leaves the reader at the end of that field with the field's text. -/
theorem csv_field_run (f : String) (p : CsvReader)
    (hs : p.state = CsvState.recordStart ∨ p.state = CsvState.fieldStart) (hf : p.field = []) :
    ∃ q, (csvWriteField f).foldl csvStep p = q ∧ q.atFieldEnd ∧ q.field = f.data ∧
      q.record = p.record ∧ q.records = p.records := by
  by_cases hq : fieldNeedsQuotes f = true
  · have h1 : csvStep p '"' = ⟨CsvState.quoted, p.field, p.record, p.records⟩ := by
      rcases hs with hs | hs <;> simp [csvStep, hs]
    have h2 : (csvQuoteLoop f.data).foldl csvStep ⟨CsvState.quoted, p.field, p.record, p.records⟩ =
        ⟨CsvState.quoted, p.field ++ f.data, p.record, p.records⟩ :=
      csv_quoted_run f.data ⟨CsvState.quoted, p.field, p.record, p.records⟩ rfl
    have h3 : csvStep ⟨CsvState.quoted, p.field ++ f.data, p.record, p.records⟩ '"' =
        ⟨CsvState.quoteSeen, p.field ++ f.data, p.record, p.records⟩ := by
      simp [csvStep]
    have e : (csvWriteField f).foldl csvStep p =
        ⟨CsvState.quoteSeen, p.field ++ f.data, p.record, p.records⟩ := by
      rw [csvWriteField, if_pos hq, List.foldl_append, List.foldl_append]
      simp only [List.foldl_cons, List.foldl_nil]
      rw [h1, h2, h3]
    exact ⟨_, e, Or.inr (Or.inr (Or.inr rfl)), by simp [hf], rfl, rfl⟩
  · have hq2 : fieldNeedsQuotes f = false := by simpa using hq
    have hc := fieldNeedsQuotes_false f hq2
    cases hd : f.data with
    | nil =>
      refine ⟨p, by simp [csvWriteField, hq2, hd], ?_, hf, rfl, rfl⟩
      rcases hs with hs | hs
      · exact Or.inl hs
      · exact Or.inr (Or.inl hs)
    | cons c rest =>
      rw [hd] at hc
      have h1 : csvSpecial c = false := hc c (List.mem_cons_self _ _)
      have h1b := h1
      simp only [csvSpecial, Bool.or_eq_false_iff, decide_eq_false_iff_not] at h1b
      obtain ⟨⟨⟨hn, hr⟩, hqq⟩, hcm⟩ := h1b
      have hstep : csvStep p c = ⟨CsvState.unquoted, p.field ++ [c], p.record, p.records⟩ := by
        rcases hs with hs | hs <;> simp [csvStep, hs, hn, hr, hqq, hcm]
      have h2 : rest.foldl csvStep ⟨CsvState.unquoted, p.field ++ [c], p.record, p.records⟩ =
          ⟨CsvState.unquoted, p.field ++ [c] ++ rest, p.record, p.records⟩ :=
        csv_unquoted_run rest ⟨CsvState.unquoted, p.field ++ [c], p.record, p.records⟩ rfl
          (fun x hx => hc x (List.mem_cons_of_mem _ hx))
      have e : (csvWriteField f).foldl csvStep p =
          ⟨CsvState.unquoted, p.field ++ [c] ++ rest, p.record, p.records⟩ := by
        rw [csvWriteField, if_neg hq, hd, List.foldl_cons, hstep, h2]
      exact ⟨_, e, Or.inr (Or.inr (Or.inl rfl)), by simp [hf], rfl, rfl⟩

/-- Reading the remaining fields of a record and the line feed that ends it. -/
theorem csv_fields_run (fs : List String) (n : Nat) (hn : n > 0) (q : CsvReader)
    (hq : q.atFieldEnd) :
    (csvWriteFields n fs ++ ['\n']).foldl csvStep q =
      ⟨CsvState.recordStart, [], [], q.records ++ [q.record ++ [String.mk q.field] ++ fs]⟩ := by
  induction fs generalizing n q with
  | nil => simp [csvWriteFields, csvStep_newline q hq, CsvReader.endRecord]
  | cons f rest ih =>
    obtain ⟨q2, h2, hend, hfield, hrec, hrecs⟩ :=
      csv_field_run f q.endField (Or.inr rfl) rfl
    have h3 := ih (n + 1) (Nat.succ_pos n) q2 hend
    simp only [csvWriteFields, hn, if_true, List.append_assoc, List.foldl_append,
      List.foldl_cons, List.foldl_nil, csvStep_comma q hq, h2] at h3 ⊢
    rw [h3, hfield, hrec, hrecs]
    simp [CsvReader.endField]

/-- Reading one written record from the start of a record appends it to the
records read. -/
theorem csv_record_run (f : String) (fs : List String) (recs : List (List String)) :
    (csvWrite (f :: fs)).foldl csvStep ⟨CsvState.recordStart, [], [], recs⟩ =
      ⟨CsvState.recordStart, [], [], recs ++ [f :: fs]⟩ := by
  obtain ⟨q, h1, hend, hfield, hrec, hrecs⟩ :=
    csv_field_run f ⟨CsvState.recordStart, [], [], recs⟩ (Or.inl rfl) rfl
  have h2 := csv_fields_run fs 1 (by decide) q hend
  simp only [csvWrite, csvWriteFields, gt_iff_lt, lt_self_iff_false, if_false, List.nil_append,
    List.append_assoc, List.foldl_append, h1] at h2 ⊢
  rw [h2, hfield, hrec, hrecs]
  simp

/-- Reading the rows written for a list of results appends one record a
result. -/
theorem csv_rows_run (results : List RecordCheckResult) (recs : List (List String)) :
    (csvRowsLoop results).foldl csvStep ⟨CsvState.recordStart, [], [], recs⟩ =
      ⟨CsvState.recordStart, [], [], recs ++ results.map csvRow⟩ := by
  induction results generalizing recs with
  | nil => simp [csvRowsLoop]
  | cons r rest ih =>
    have h1 : (csvWrite (csvRow r)).foldl csvStep ⟨CsvState.recordStart, [], [], recs⟩ =
        ⟨CsvState.recordStart, [], [], recs ++ [csvRow r]⟩ :=
      csv_record_run _ _ recs
    rw [csvRowsLoop, List.foldl_append, h1, ih]
    simp

/-- The reference reader recovers the header and the rows from the file
`saveResultsToCSV` writes. -/
theorem parseCSV_csvContent (results : List RecordCheckResult) :
    parseCSV (csvContent results) = some (csvHeader :: results.map csvRow) := by
  have h1 : (csvWrite csvHeader).foldl csvStep ⟨CsvState.recordStart, [], [], []⟩ =
      ⟨CsvState.recordStart, [], [], [] ++ [csvHeader]⟩ :=
    csv_record_run _ _ []
  have h2 : (csvContent results).data.foldl csvStep ⟨CsvState.recordStart, [], [], []⟩ =
      ⟨CsvState.recordStart, [], [], csvHeader :: results.map csvRow⟩ := by
    show (csvWrite csvHeader ++ csvRowsLoop results).foldl csvStep _ = _
    rw [List.foldl_append, h1, csv_rows_run]
    simp
  simp only [parseCSV, h2]

/-- C9: when the file can be created, `saveResultsToCSV` writes one file whose
text is the header line `Domain,SPF,DKIM,DMARC,Warnings` followed by one
written record for each result in input order; read back by the rules of
RFC 4180 the text yields the header record and then, for each result in order,
the five fields domain, SPF, DKIM, DMARC and the warnings joined with `; `
(the empty string for no warnings, `w1; w2` for two warnings), unchanged
whatever characters (commas, double quotes, line breaks) the fields hold. -/
theorem saveResultsToCSV_contract (env : Env) (results : List RecordCheckResult)
    (filePath : String) (h : env.createErr filePath = none) :
    (saveResultsToCSV env results filePath).trace =
      [Event.fileWrite filePath (csvContent results)] ∧
    (csvContent results).data =
      "Domain,SPF,DKIM,DMARC,Warnings\n".data ++ csvRowsLoop results ∧
    parseCSV (csvContent results) =
      some (["Domain", "SPF", "DKIM", "DMARC", "Warnings"] ::
        results.map (fun r => [r.Domain, r.SPF, r.DKIM, r.DMARC, join r.Warnings "; "])) ∧
    (∃ records, parseCSV (csvContent results) = some records ∧
      records.length = results.length + 1 ∧ ∀ rec ∈ records, rec.length = 5) ∧
    join [] "; " = "" ∧
    (∀ w1 w2 : String, join [w1, w2] "; " = w1 ++ "; " ++ w2) := by
  have hp := parseCSV_csvContent results
  refine ⟨by simp [saveResultsToCSV, h], ?_, hp, ⟨_, hp, by simp, ?_⟩, rfl, fun _ _ => rfl⟩
  · show csvWrite csvHeader ++ csvRowsLoop results = _
    have : csvWrite csvHeader = "Domain,SPF,DKIM,DMARC,Warnings\n".data := by decide
    rw [this]
  · intro rec hrec
    rcases List.mem_cons.mp hrec with rfl | hrec
    · rfl
    · obtain ⟨r, _, rfl⟩ := List.mem_map.mp hrec
      rfl

/-- C9 at a result with two warnings whose record texts hold commas, double
quotes and a leading blank. -/
theorem saveResultsToCSV_contract_witness :
    parseCSV (csvContent
        [{ Domain := "a.com", SPF := "v=spf1 a, mx", DKIM := "Found (k1): v=DKIM1; p=\"ABC\"",
           DMARC := " v=DMARC1", Warnings := [spfWarning, dmarcWeakWarning] }]) =
      some [["Domain", "SPF", "DKIM", "DMARC", "Warnings"],
            ["a.com", "v=spf1 a, mx", "Found (k1): v=DKIM1; p=\"ABC\"", " v=DMARC1",
             spfWarning ++ "; " ++ dmarcWeakWarning]] :=
  (saveResultsToCSV_contract fileEnv
    [{ Domain := "a.com", SPF := "v=spf1 a, mx", DKIM := "Found (k1): v=DKIM1; p=\"ABC\"",
       DMARC := " v=DMARC1", Warnings := [spfWarning, dmarcWeakWarning] }]
    "out.csv" (by rfl)).2.2.1

end DnsScanner
